import Mathlib

/-!
Verification development for the meme-wars commit-reveal card-battle engine.

The Rust engine (crates `mcg` and `meme-wars`) is shallowly embedded below:
pure functions become Lean functions, `&mut self` methods become explicit
state-passing functions returning the new state together with an
`Except String Unit` result, machine integers become `Nat`/`Int` with
explicit saturation/truncation where the source uses saturating or `as`
casts, and external collaborators (the SHA-256 hasher, the `rand` PCG
stream, the node identity, and the global card catalog) are abstracted into
an `Ext` record of oracle functions, exactly as the engine treats them as
external primitives.
-/

namespace MemeWars

/-- `types.rs`: the two fixed player roles. -/
inductive Seat where
  | Host
  | Opponent
deriving DecidableEq, Repr

/-- `Seat::other`. -/
def Seat.other : Seat → Seat
  | Seat.Host => Seat.Opponent
  | Seat.Opponent => Seat.Host

/-- `types.rs::ShieldedKeyword`. -/
structure ShieldedKeyword where
  amount : Int
deriving DecidableEq, Repr

/-- `types.rs::GatekeeperKeyword`; `max_cost` is a `u8`. -/
structure GatekeeperKeyword where
  max_cost : Nat
deriving DecidableEq, Repr

/-- `types.rs::Keyword`. -/
inductive Keyword where
  | Haste
  | Stealth
  | Fragile
  | Shielded (k : ShieldedKeyword)
  | Taunt
  | Anchor
  | Heavy
  | Gatekeeper (k : GatekeeperKeyword)
  | HealKitchen
deriving DecidableEq, Repr

/-- `types.rs::AbilityTrigger`. -/
inductive AbilityTrigger where
  | OnPlayKitchen
  | OnPost
  | OnAbyss
  | OnFeedTurnEnd
  | AuraKitchen
deriving DecidableEq, Repr

/-- `types.rs::SpawnLocation`. -/
inductive SpawnLocation where
  | Kitchen
  | Hand
deriving DecidableEq, Repr

/-- `types.rs::SpawnParams`; `count` is a `u8`. -/
structure SpawnParams where
  variant_id : String
  count : Nat
  location : SpawnLocation
deriving DecidableEq, Repr

/-- `types.rs::RandomRange` (`i32` endpoints). -/
structure RandomRange where
  min : Int
  max : Int
deriving DecidableEq, Repr

/-- `types.rs::AbilityEffect`. -/
inductive AbilityEffect where
  | DamageBelow (amount : Int)
  | DrainBelow (amount : Int)
  | SwapBelow
  | Knockback (steps : Nat)
  | Spawn (params : SpawnParams)
  | BuffSelf (amount : Int)
  | BuffOtherKitchen (amount : Int)
  | GainMana (amount : Nat)
  | PingOpponentTop (amount : Int)
  | SelfDestructNext
  | RandomizeVirality (range : RandomRange)
deriving DecidableEq, Repr

/-- `types.rs::Ability`. -/
structure Ability where
  trigger : AbilityTrigger
  effect : AbilityEffect
deriving DecidableEq, Repr

/-- `types.rs::Target`. -/
inductive Target where
  | AnyKitchen
  | EnemyKitchen
  | FeedSlot (slot : Nat)
  | Card (id : String)
deriving DecidableEq, Repr

/-- `types.rs::DamageParams`. -/
structure DamageParams where
  amount : Int
  target : Target
deriving DecidableEq, Repr

/-- `types.rs::NukeParams`. -/
structure NukeParams where
  threshold : Int
deriving DecidableEq, Repr

/-- `types.rs::TaxParams` (`u8` amount). -/
structure TaxParams where
  amount : Nat
deriving DecidableEq, Repr

/-- `types.rs::ManaBurnParams` (`u8` amount). -/
structure ManaBurnParams where
  amount : Nat
deriving DecidableEq, Repr

/-- `types.rs::ExploitEffect`. -/
inductive ExploitEffect where
  | Damage (params : DamageParams)
  | AreaDamageKitchen (amount : Int)
  | Boost (amount : Int)
  | Debuff (amount : Int)
  | ResurrectLast
  | Protect
  | Double
  | Execute
  | PinSlot (slot : Nat)
  | MoveUp (slot : Nat)
  | LockFeed
  | NukeBelow (params : NukeParams)
  | Tax (params : TaxParams)
  | ShuffleFeed
  | DiscountNext
  | ManaBurn (params : ManaBurnParams)
  | WipeBottom (count : Nat)
  | SpawnShitposts (count : Nat)
  | Silence
deriving DecidableEq, Repr

/-- `types.rs::MemeBlueprint`. -/
structure MemeBlueprint where
  base_virality : Int
  cook_rate : Int
  yield_rate : Int
  keywords : List Keyword
  abilities : List Ability
  volatile : Option Int
  initial_freeze : Option Nat
deriving DecidableEq, Repr

/-- `types.rs::CardKind`. -/
inductive CardKind where
  | Meme (blueprint : MemeBlueprint)
  | Exploit (effect : ExploitEffect)
deriving DecidableEq, Repr

/-- `types.rs::CardDefinition` (the `image`/`description` fields are
UI-only and never read by the engine; they are omitted). -/
structure CardDefinition where
  id : String
  name : String
  cost : Nat
  «class» : CardKind
deriving DecidableEq, Repr

/-- `types.rs::FeedSlot`. -/
structure FeedSlot where
  slot : Nat
deriving DecidableEq, Repr

/-- `types.rs::Location`. -/
inductive Location where
  | Deck
  | Hand
  | Kitchen
  | Feed (s : FeedSlot)
  | Abyss
deriving DecidableEq, Repr

/-- `types.rs::CardInstance`; `cost` is a `u8`, virality fields are `i32`,
`frozen_turns`/`played_turn` are `u32`. -/
structure CardInstance where
  instance_id : String
  variant_id : String
  name : String
  owner : Seat
  cost : Nat
  «class» : CardKind
  base_virality : Int
  current_virality : Int
  cook_rate : Int
  yield_rate : Int
  keywords : List Keyword
  abilities : List Ability
  volatile : Option Int
  frozen_turns : Nat
  protected_until_end : Bool
  shield : Int
  played_turn : Nat
  location : Location
deriving DecidableEq, Repr

/-- `types.rs::PostAction`. -/
structure PostAction where
  card_id : String
deriving DecidableEq, Repr

/-- `types.rs::ExploitAction`. -/
structure ExploitAction where
  card_id : String
  target : Option Target
deriving DecidableEq, Repr

/-- `types.rs::TurnPlan`. The `based` stake-call flag is read by
`game.rs::resolve_if_ready` but absent from the reviewed `TurnPlan`
declaration; the spec's design notes direct implementers to add it as an
explicit field, so it is modelled from the spec here (default `false`). -/
structure TurnPlan where
  plays_to_kitchen : List String
  posts : List PostAction
  exploits : List ExploitAction
  based : Bool
deriving DecidableEq, Repr

/-- `impl Default for TurnPlan`. -/
def TurnPlan.default : TurnPlan :=
  { plays_to_kitchen := [], posts := [], exploits := [], based := false }

/-- `types.rs::TurnCommit`. -/
structure TurnCommit where
  hash : String
  salt : Option String
  revealed : Option TurnPlan
  turn : Nat
deriving DecidableEq, Repr

/-- `types.rs::Phase`. -/
inductive Phase where
  | Lobby
  | Commit
  | Reveal
  | Resolving
  | StakePending
  | GameOver
deriving DecidableEq, Repr

/-! ## Constants (`constants.rs`) -/

def FEED_SIZE : Nat := 3
def STARTING_HAND : Nat := 2
def MAX_HAND_SIZE : Nat := 4
def MAX_DECK_SIZE : Nat := 12
def MEME_LIMIT : Nat := 4
def EXPLOIT_LIMIT : Nat := 8
def STARTING_MANA : Nat := 2
def MANA_CAP : Nat := 10
def BASE_COOK : Int := 1
def BASE_FEED_YIELD : Int := 10
def FEED_YIELD_STEP : Int := 5
def SCORE_TO_WIN : Int := 30

/-! ## Generic list helpers

These model the `Vec` access patterns of the source: in-place update of
the first element matching a predicate (`iter_mut().find`), bounds-checked
`Vec::swap`, and `Vec::insert`. -/

/-- Update the first element satisfying `p` (mirrors `iter_mut().find`). -/
def updateFirst (p : α → Bool) (f : α → α) : List α → List α
  | [] => []
  | a :: rest => if p a then f a :: rest else a :: updateFirst p f rest

/-- `Vec::swap` with the in-bounds guarantee made explicit: out-of-range
indices (which panic in Rust and never occur on the engine's call sites)
leave the list unchanged. -/
def listSwap (l : List α) (i j : Nat) : List α :=
  if h : i < l.length ∧ j < l.length then
    (l.set i (l.get ⟨j, h.2⟩)).set j (l.get ⟨i, h.1⟩)
  else l

/-- `Vec::insert` at index `n` (call sites clamp `n ≤ l.length`). -/
def insertAt (n : Nat) (a : α) : List α → List α
  | [] => [a]
  | b :: rest =>
    match n with
    | 0 => a :: b :: rest
    | Nat.succ m => b :: insertAt m a rest

/-- Pop from the back of a `Vec` (`Vec::pop`). -/
def popBack (l : List α) : Option (α × List α) :=
  match l.reverse with
  | [] => none
  | a :: restRev => some (a, restRev.reverse)

/-- Remove-and-return the element at index `n` (`Vec::remove`). -/
def removeAt : Nat → List α → Option (α × List α)
  | _, [] => none
  | 0, a :: rest => some (a, rest)
  | Nat.succ n, a :: rest =>
    match removeAt n rest with
    | some (x, rest') => some (x, a :: rest')
    | none => none

/-- In-place update at an index (`get_mut(i)`); out of range is a no-op,
matching `if let Some(x) = v.get_mut(i)`. -/
def modifyAt (f : α → α) : Nat → List α → List α
  | _, [] => []
  | 0, a :: rest => f a :: rest
  | Nat.succ n, a :: rest => a :: modifyAt f n rest

/-! ## Fairness oracles

SHA-256, JSON serialization, the `rand` PCG stream and the local node
identity are external crates and system facilities, not code of this
repository; they are abstracted as an oracle record so that every theorem
below holds for any implementation of them. The `draw` field summarises
the per-seat sampling block of `rng.rs::FairRandomState::generate`:
re-derive the seat's generator from its seed (`pcg_from_seed`), advance it
by the seat's cumulative draw count (`for _ in 0..draws { next_u64() }`)
and sample `gen_range(0..bound)`; this whole block is a pure function of
(seed, prior draw count, bound). The rand crate guarantees the sample lies
in `[0, bound)` for positive `bound`; that contract is the `DrawBounded`
hypothesis. -/

structure Ext where
  /-- `catalog.rs::find_definition`: read-only global catalog lookup. -/
  findDef : String → Option CardDefinition
  /-- seed → cumulative prior draw count → bound → sampled value. -/
  draw : Nat → Nat → Nat → Nat
  /-- `crypto.rs::commitment_for`: hex SHA-256 of (serialized plan ‖ salt). -/
  commitment_for : TurnPlan → String → String
  /-- `rng.rs::contribution_commitment`: hex SHA-256 of (value ‖ salt). -/
  contribution_commitment : Nat → String → String
  /-- `rng.rs::contribution_signature`: hash folding in the node identity. -/
  contribution_signature : String → Seat → String
  /-- `rng.rs::derive_seed`: SHA-256 based per-seat seed derivation. -/
  derive_seed : Nat → String → Nat
  /-- `hyperware_process_lib::our().node`. -/
  ourNode : String

/-- The rand crate's `gen_range(0..bound)` contract: samples are below the
bound whenever the bound is positive. -/
def DrawBounded (ext : Ext) : Prop :=
  ∀ seed count bound, 0 < bound → ext.draw seed count bound < bound

/-! ## Random events (`rng.rs`) -/

/-- `rng.rs::RandomEventKind`. -/
inductive RandomEventKind where
  | ShuffleDeck (seat : Seat)
  | ShuffleFeed
  | RandomizeVirality (id : String)
deriving DecidableEq, Repr

/-- `{:?}` rendering of a seat, used in contribution salt strings. -/
def seatDebug : Seat → String
  | Seat.Host => "Host"
  | Seat.Opponent => "Opponent"

/-- `{:?}` rendering of a `RandomEventKind`, used in contribution salts. -/
def kindDebug : RandomEventKind → String
  | RandomEventKind.ShuffleDeck s => "ShuffleDeck(" ++ seatDebug s ++ ")"
  | RandomEventKind.ShuffleFeed => "ShuffleFeed"
  | RandomEventKind.RandomizeVirality id => "RandomizeVirality(\"" ++ id ++ "\")"

/-- `rng.rs::RandomContribution` (`value` is a `u64`). -/
structure RandomContribution where
  seat : Seat
  value : Nat
  salt : String
  commitment : String
  signature : String
deriving DecidableEq, Repr

/-- `RandomContribution::new`. -/
def RandomContribution.new (ext : Ext) (seat : Seat) (value : Nat) (salt : String) :
    RandomContribution :=
  let commitment := ext.contribution_commitment value salt
  { seat := seat, value := value, salt := salt, commitment := commitment,
    signature := ext.contribution_signature commitment seat }

/-- `rng.rs::RandomEvent`. -/
structure RandomEvent where
  turn : Nat
  bound : Nat
  result : Nat
  kind : RandomEventKind
  contributions : List RandomContribution
deriving DecidableEq, Repr

/-- `rng.rs::StartingHandCycle`. -/
structure StartingHandCycle where
  card_ids : List String
deriving DecidableEq, Repr

/-- `rng.rs::StartingHandEvent`. -/
structure StartingHandEvent where
  seat : Seat
  cycles : List StartingHandCycle
  chosen : List String
deriving DecidableEq, Repr

/-- `rng.rs::FairRandomState`. -/
structure FairRandomState where
  host_seed : Nat
  opponent_seed : Nat
  host_draws : Nat
  opponent_draws : Nat
  history : List RandomEvent
deriving DecidableEq, Repr

/-- `FairRandomState::new`. -/
def FairRandomState.new (ext : Ext) (seed : Nat) : FairRandomState :=
  { host_seed := ext.derive_seed seed "host",
    opponent_seed := ext.derive_seed seed "opponent",
    host_draws := 0, opponent_draws := 0, history := [] }

/-- `FairRandomState::generate`: one audited dual-stream draw. -/
def FairRandomState.generate (ext : Ext) (r : FairRandomState) (bound : Nat) (turn : Nat)
    (kind : RandomEventKind) : Nat × FairRandomState :=
  if bound = 0 then (0, r)
  else
    let host_value := ext.draw r.host_seed r.host_draws bound
    let host_draws := r.host_draws + 1
    let host_contribution := RandomContribution.new ext Seat.Host host_value
      ("turn-" ++ toString turn ++ "-host-draw-" ++ toString host_draws ++ "-" ++ kindDebug kind)
    let opponent_value := ext.draw r.opponent_seed r.opponent_draws bound
    let opponent_draws := r.opponent_draws + 1
    let opponent_contribution := RandomContribution.new ext Seat.Opponent opponent_value
      ("turn-" ++ toString turn ++ "-opponent-draw-" ++ toString opponent_draws ++ "-" ++
        kindDebug kind)
    let result := (host_value + opponent_value) % bound
    (result,
      { r with host_draws := host_draws, opponent_draws := opponent_draws,
               history := r.history ++
                 [{ turn := turn, bound := bound, result := result, kind := kind,
                    contributions := [host_contribution, opponent_contribution] }] })

/-- The countdown loop of `FairRandomState::shuffle`: argument `i` is the
current Fisher–Yates index (`for i in (1..len).rev()`), so the recursive
step handles `i = j + 1` with bound `i + 1 = j + 2`. -/
def FairRandomState.shuffleAux (ext : Ext) (turn : Nat) (kind : RandomEventKind) :
    Nat → FairRandomState → List CardInstance → FairRandomState × List CardInstance
  | 0, r, items => (r, items)
  | Nat.succ j, r, items =>
    let (idx, r') := r.generate ext (j + 2) turn kind
    FairRandomState.shuffleAux ext turn kind j r' (listSwap items (j + 1) idx)

/-- `FairRandomState::shuffle`. -/
def FairRandomState.shuffle (ext : Ext) (r : FairRandomState) (items : List CardInstance)
    (turn : Nat) (kind : RandomEventKind) : FairRandomState × List CardInstance :=
  if items.length ≤ 1 then (r, items)
  else FairRandomState.shuffleAux ext turn kind (items.length - 1) r items

/-! ## Game state (`game.rs`) -/

/-- `game.rs::PlayerState` (`mana`/`max_mana` are `u8`, `score`,
`cost_discount` and `mana_tax_next` are `i32`). -/
structure PlayerState where
  seat : Seat
  node_id : String
  deck : List CardInstance
  hand : List CardInstance
  kitchen : List CardInstance
  abyss : List CardInstance
  mana : Nat
  max_mana : Nat
  score : Int
  cost_discount : Int
  mana_tax_next : Int
  commit : Option TurnCommit
  feed_locked : Bool
  pinned_slots : List Nat
deriving DecidableEq, Repr

/-- `game.rs::StartingHandEvent` wrapper kinds (`GameEventKind`). -/
inductive GameEventKind where
  | Random (ev : RandomEvent)
  | StartingHand (ev : StartingHandEvent)
deriving DecidableEq, Repr

/-- `game.rs::GameEvent`. -/
structure GameEvent where
  event : GameEventKind
deriving DecidableEq, Repr

/-- `game.rs::GameState` (`stakes` is a `u8`). -/
structure GameState where
  feed : List CardInstance
  players : List PlayerState
  turn : Nat
  initiative : Seat
  phase : Phase
  stakes : Nat
  pending_stakes : Option String
  winner : Option Seat
  game_seed : Nat
  next_instance : Nat
  rng : FairRandomState
  events : List GameEvent
deriving DecidableEq, Repr

/-! `split_players_mut` accesses the players vector by fixed index: Host is
slot 0, Opponent slot 1 (it never inspects the `seat` fields). These
helpers mirror that; states with fewer than two players would panic in the
source and are left unchanged / reported here. -/

/-- Index of a seat in the players vector, as `split_players_mut` fixes it. -/
def seatIdx : Seat → Nat
  | Seat.Host => 0
  | Seat.Opponent => 1

/-- Read the active component of `split_players_mut`. -/
def getSeat? (players : List PlayerState) (seat : Seat) : Option PlayerState :=
  players.get? (seatIdx seat)

/-- Write through the active component of `split_players_mut`. -/
def withSeat (seat : Seat) (f : PlayerState → PlayerState)
    (players : List PlayerState) : List PlayerState :=
  modifyAt f (seatIdx seat) players

/-! ## Small card helpers (`game.rs` free functions) -/

/-- `game.rs::card_cost`: cost minus the seat discount, floored at 0, then
returned as a `u8` (the final `as u8` cast truncates mod 256). -/
def card_cost (cards : List CardInstance) (id : String) (discount : Int) : Except String Nat :=
  match cards.find? (fun c => c.instance_id == id) with
  | none => Except.error "card not found"
  | some card =>
    let cost : Int := (card.cost : Int) - discount
    let cost := if cost < 0 then 0 else cost
    Except.ok (cost.toNat % 256)

/-- `game.rs::apply_damage`. -/
def apply_damage (card : CardInstance) (amount : Int) (ignore_protect : Bool) : CardInstance :=
  if card.protected_until_end ∧ ¬ignore_protect then card
  else
    let dmg := if card.shield > 0 ∧ ¬ignore_protect then max (amount - card.shield) 0 else amount
    if card.keywords.contains Keyword.Fragile ∧ 0 < dmg then
      { card with current_virality := 0 }
    else
      { card with current_virality := card.current_virality - dmg }

/-- `game.rs::has_taunt`. -/
def has_taunt (cards : List CardInstance) : Bool :=
  cards.any (fun c => c.keywords.contains Keyword.Taunt)

/-- `game.rs::aura_amount`. -/
def aura_amount (abilities : List Ability) : Option Int :=
  abilities.findSome? (fun a =>
    match a.effect with
    | AbilityEffect.BuffOtherKitchen amount => some amount
    | _ => none)

/-- `game.rs::remove_card`: remove-and-return the first card with the id. -/
def remove_card (cards : List CardInstance) (id : String) :
    Option (CardInstance × List CardInstance) :=
  match cards with
  | [] => none
  | c :: rest =>
    if c.instance_id == id then some (c, rest)
    else
      match remove_card rest id with
      | some (x, rest') => some (x, c :: rest')
      | none => none

/-- Membership test matching `find_card_mut`'s search predicate. -/
def contains_card (cards : List CardInstance) (id : String) : Bool :=
  cards.any (fun c => c.instance_id == id)

/-- `game.rs::find_card_mut` followed by an in-place mutation `f`. -/
def update_card (cards : List CardInstance) (id : String)
    (f : CardInstance → CardInstance) : List CardInstance :=
  updateFirst (fun c => c.instance_id == id) f cards

/-- `game.rs::find_card_mut_for_owner` followed by a mutation `f`: the
caster's kitchen is searched first, then the shared feed filtered to the
caster's own cards. Returns the updated (kitchen, feed) pair. -/
def update_card_for_owner (kitchen feed : List CardInstance) (owner : Seat) (id : String)
    (f : CardInstance → CardInstance) : List CardInstance × List CardInstance :=
  if contains_card kitchen id then (update_card kitchen id f, feed)
  else (kitchen, updateFirst (fun c => c.instance_id == id && c.owner == owner) f feed)

/-- `game.rs::find_enemy_card_mut_for_owner` followed by a mutation `f`:
the enemy kitchen first, then the feed filtered to enemy-owned cards. -/
def update_enemy_card_for_owner (kitchen feed : List CardInstance) (owner : Seat) (id : String)
    (f : CardInstance → CardInstance) : List CardInstance × List CardInstance :=
  if contains_card kitchen id then (update_card kitchen id f, feed)
  else (kitchen, updateFirst (fun c => c.instance_id == id && c.owner == owner.other) f feed)

/-! ## GameState queries and zone moves -/

/-- `GameState::ready_to_resolve`. -/
def GameState.ready_to_resolve (s : GameState) : Bool :=
  s.players.all (fun p =>
    match p.commit with
    | some c => c.revealed.isSome
    | none => false)

/-- `GameState::player_node` (search by the `seat` field). -/
def GameState.player_node (s : GameState) (seat : Seat) : Option String :=
  (s.players.find? (fun p => p.seat == seat)).map (fun p => p.node_id)

/-- `GameState::plan_for`. -/
def GameState.plan_for (s : GameState) (seat : Seat) : Option TurnPlan :=
  match s.players.find? (fun p => p.seat == seat) with
  | some p =>
    match p.commit with
    | some c => c.revealed
    | none => none
  | none => none

/-- `GameState::check_win_condition`. -/
def GameState.check_win_condition (s : GameState) : Option Seat :=
  match s.players.find? (fun p => p.seat == Seat.Host),
        s.players.find? (fun p => p.seat == Seat.Opponent) with
  | some host, some opp =>
    let host_won := host.score ≥ SCORE_TO_WIN
    let opp_won := opp.score ≥ SCORE_TO_WIN
    if host_won ∧ opp_won then
      if opp.score > host.score then some Seat.Opponent else some Seat.Host
    else if host_won then some Seat.Host
    else if opp_won then some Seat.Opponent
    else none
  | _, _ => none

/-- `GameState::new_instance_from_def` (bumps the instance allocator). -/
def GameState.new_instance_from_def (s : GameState) (d : CardDefinition) (owner : Seat)
    (location : Location) : CardInstance × GameState :=
  let instance_id := d.id ++ "-" ++ toString s.next_instance
  let s' := { s with next_instance := s.next_instance + 1 }
  match d.«class» with
  | CardKind.Meme meme =>
    ({ instance_id := instance_id, variant_id := d.id, name := d.name, owner := owner,
       cost := d.cost, «class» := d.«class», base_virality := meme.base_virality,
       current_virality := meme.base_virality, cook_rate := meme.cook_rate,
       yield_rate := meme.yield_rate, keywords := meme.keywords,
       abilities := meme.abilities, volatile := meme.volatile,
       frozen_turns := meme.initial_freeze.getD 0, protected_until_end := false,
       shield := (meme.keywords.findSome? (fun k =>
         match k with
         | Keyword.Shielded sk => some sk.amount
         | _ => none)).getD 0,
       played_turn := s.turn, location := location }, s')
  | CardKind.Exploit _ =>
    ({ instance_id := instance_id, variant_id := d.id, name := d.name, owner := owner,
       cost := d.cost, «class» := d.«class», base_virality := 0, current_virality := 0,
       cook_rate := 0, yield_rate := 0, keywords := [], abilities := [], volatile := none,
       frozen_turns := 0, protected_until_end := false, shield := 0,
       played_turn := s.turn, location := location }, s')

/-- `GameState::to_abyss`. -/
def GameState.to_abyss (s : GameState) (seat : Seat) (card : CardInstance) : GameState :=
  { s with players := withSeat seat (fun p =>
      { p with abyss := p.abyss ++ [{ card with location := Location.Abyss }] }) s.players }

/-- `GameState::reindex_feed`: rewrite every feed card's location slot. -/
def GameState.reindex_feed (s : GameState) : GameState :=
  { s with feed := s.feed.enum.map (fun p => { p.2 with location := Location.Feed ⟨p.1⟩ }) }

/-- `GameState::record_random`: one audited draw, mirrored into the game
event log. -/
def GameState.record_random (ext : Ext) (s : GameState) (bound : Nat) (kind : RandomEventKind) :
    Nat × GameState :=
  let (result, rng') := s.rng.generate ext bound s.turn kind
  let s' := { s with rng := rng' }
  match rng'.history.getLast? with
  | some ev => (result, { s' with events := s'.events ++ [{ event := GameEventKind.Random ev }] })
  | none => (result, s')

/-- The countdown loop of `GameState::fair_shuffle_feed` (argument is the
current Fisher–Yates index). -/
def GameState.fairShuffleFeedAux (ext : Ext) : Nat → GameState → GameState
  | 0, s => s
  | Nat.succ j, s =>
    let (idx, s') := s.record_random ext (j + 2) RandomEventKind.ShuffleFeed
    GameState.fairShuffleFeedAux ext j { s' with feed := listSwap s'.feed (j + 1) idx }

/-- `GameState::fair_shuffle_feed`. -/
def GameState.fair_shuffle_feed (ext : Ext) (s : GameState) : GameState :=
  if s.feed.length ≤ 1 then s
  else (GameState.fairShuffleFeedAux ext (s.feed.length - 1) s).reindex_feed

/-- `GameState::shift_feed_up`. -/
def GameState.shift_feed_up (s : GameState) (slot : Nat) : GameState × Except String Unit :=
  if slot = 0 ∨ s.feed.length ≤ slot then (s, Except.ok ())
  else
    let pinned := s.players.any (fun p => p.pinned_slots.contains slot) ||
      ((s.feed.get? slot).map (fun c => c.keywords.contains Keyword.Anchor)).getD false
    if pinned then (s, Except.ok ())
    else (({ s with feed := listSwap s.feed (slot - 1) slot }).reindex_feed, Except.ok ())

/-- `GameState::resurrect_last`: pop the seat's abyss into its hand. -/
def GameState.resurrect_last (s : GameState) (seat : Seat) : GameState × Except String Unit :=
  ({ s with players := withSeat seat (fun p =>
      match popBack p.abyss with
      | some (card, rest) =>
        { p with abyss := rest, hand := p.hand ++ [{ card with location := Location.Hand }] }
      | none => p) s.players }, Except.ok ())

/-- `GameState::feed_lock_active`. -/
def GameState.feed_lock_active (s : GameState) : Bool :=
  s.players.any (fun p => p.feed_locked)

/-- `GameState::take_from_kitchen`: remove the named kitchen card for
posting. A frozen card (without Haste) or a card played to kitchen this
turn (without Haste) is refused; the source removes and re-pushes it, so a
refused card moves to the end of the kitchen. -/
def GameState.take_from_kitchen (s : GameState) (seat : Seat) (posts : List PostAction) :
    Option CardInstance × GameState :=
  match posts.head? with
  | none => (none, s)
  | some post =>
    match getSeat? s.players seat with
    | none => (none, s)
    | some player =>
      match remove_card player.kitchen post.card_id with
      | none => (none, s)
      | some (card, rest) =>
        if (0 < card.frozen_turns ∧ ¬card.keywords.contains Keyword.Haste) ∨
           (card.played_turn = s.turn ∧ ¬card.keywords.contains Keyword.Haste) then
          (none, { s with players := withSeat seat (fun p =>
            { p with kitchen := rest ++ [card] }) s.players })
        else
          (some { card with location := Location.Feed ⟨0⟩ },
           { s with players := withSeat seat (fun p => { p with kitchen := rest }) s.players })

/-- The inner `for _ in 0..params.count` spawn loop of
`GameState::play_to_kitchen`, collecting spawned instances. -/
def GameState.spawnCollect (ext : Ext) (seat : Seat) (params : SpawnParams) :
    Nat → GameState → List CardInstance → List CardInstance →
    GameState × List CardInstance × List CardInstance
  | 0, s, sk, sh => (s, sk, sh)
  | Nat.succ n, s, sk, sh =>
    match ext.findDef params.variant_id with
    | none => GameState.spawnCollect ext seat params n s sk sh
    | some d =>
      let target_location :=
        match params.location with
        | SpawnLocation.Kitchen => Location.Kitchen
        | SpawnLocation.Hand => Location.Hand
      let (spawned, s') := s.new_instance_from_def d seat target_location
      match target_location with
      | Location.Kitchen => GameState.spawnCollect ext seat params n s' (sk ++ [spawned]) sh
      | Location.Hand => GameState.spawnCollect ext seat params n s' sk (sh ++ [spawned])
      | _ => GameState.spawnCollect ext seat params n s' sk sh

/-- `GameState::play_to_kitchen`. Note the source removes the card from
the hand before checking its class, so a failed non-Meme play still loses
the card (this mutation persists, as in the source). -/
def GameState.play_to_kitchen (ext : Ext) (s : GameState) (seat : Seat) (instance_id : String) :
    GameState × Except String Unit :=
  match getSeat? s.players seat with
  | none => (s, Except.error "seat not found")
  | some player =>
    match remove_card player.hand instance_id with
    | none => (s, Except.error "card not in hand")
    | some (card, handRest) =>
      let s := { s with players := withSeat seat (fun p =>
        { p with hand := handRest }) s.players }
      match card.«class» with
      | CardKind.Exploit _ => (s, Except.error "only memes can be played to kitchen")
      | CardKind.Meme _ =>
        let card := { card with location := Location.Kitchen, played_turn := s.turn }
        let (s, spawned_kitchen, spawned_hand) :=
          card.abilities.foldl (fun acc ability =>
            let (st, sk, sh) := acc
            if ability.trigger = AbilityTrigger.OnPlayKitchen then
              match ability.effect with
              | AbilityEffect.Spawn params =>
                GameState.spawnCollect ext seat params params.count st sk sh
              | _ => acc
            else acc) (s, [], [])
        ({ s with players := withSeat seat (fun p =>
            { p with kitchen := (p.kitchen ++ [card]) ++ spawned_kitchen,
                     hand := p.hand ++ spawned_hand }) s.players }, Except.ok ())

/-! ## Exploit validation and casting -/

/-- Fallible iteration over a list, threading the game state and stopping
at the first error (the `for ... { f(...)? }` pattern). -/
def foldE (f : α → GameState → GameState × Except String Unit) :
    List α → GameState → GameState × Except String Unit
  | [], s => (s, Except.ok ())
  | a :: rest, s =>
    match f a s with
    | (s', Except.ok _) => foldE f rest s'
    | (s', Except.error e) => (s', Except.error e)

/-- `GameState::validate_exploit_target_seat` (read-only). -/
def GameState.validate_exploit_target_seat (s : GameState) (seat : Seat)
    (action : ExploitAction) : Except String Unit :=
  match s.players.find? (fun p => p.seat == seat) with
  | none => Except.error "seat not found"
  | some player =>
  match s.players.find? (fun p => p.seat == seat.other) with
  | none => Except.error "opponent not found"
  | some opponent =>
  match player.hand.find? (fun c => c.instance_id == action.card_id) with
  | none => Except.error "exploit not in hand"
  | some card =>
  match card.«class» with
  | CardKind.Meme _ => Except.error "card is not an exploit"
  | CardKind.Exploit effect =>
    match effect, action.target with
    | ExploitEffect.Damage _, some (Target.Card target_id) =>
      (match opponent.kitchen.find? (fun c => c.instance_id == target_id) with
       | some target =>
         if has_taunt opponent.kitchen ∧ ¬target.keywords.contains Keyword.Taunt then
           Except.error "must target taunt card first"
         else if target.keywords.contains Keyword.Stealth then
           Except.error "target is stealth"
         else Except.ok ()
       | none =>
         if s.feed.any (fun c => c.instance_id == target_id && c.owner == seat.other) then
           Except.ok ()
         else Except.error "target not found in enemy kitchen or feed")
    | ExploitEffect.Damage _, some Target.EnemyKitchen => Except.ok ()
    | ExploitEffect.Damage _, some (Target.FeedSlot slot) =>
      if s.feed.length ≤ slot then Except.error "invalid feed slot" else Except.ok ()
    | ExploitEffect.Damage _, none => Except.error "damage exploit requires a target"
    | ExploitEffect.AreaDamageKitchen _, _ => Except.ok ()
    | ExploitEffect.Boost _, some (Target.Card target_id)
    | ExploitEffect.Protect, some (Target.Card target_id)
    | ExploitEffect.Double, some (Target.Card target_id) =>
      if (player.kitchen.find? (fun c => c.instance_id == target_id)).isNone ∧
         ¬s.feed.any (fun c => c.instance_id == target_id && c.owner == seat) then
        Except.error "target not found in your kitchen or feed"
      else Except.ok ()
    | ExploitEffect.Boost _, none
    | ExploitEffect.Protect, none
    | ExploitEffect.Double, none => Except.error "buff exploit requires a target"
    | ExploitEffect.Debuff _, some (Target.Card target_id)
    | ExploitEffect.Execute, some (Target.Card target_id)
    | ExploitEffect.Silence, some (Target.Card target_id) =>
      (match opponent.kitchen.find? (fun c => c.instance_id == target_id) with
       | some target =>
         if has_taunt opponent.kitchen ∧ ¬target.keywords.contains Keyword.Taunt then
           Except.error "must target taunt card first"
         else if target.keywords.contains Keyword.Stealth then
           Except.error "target is stealth"
         else Except.ok ()
       | none =>
         if s.feed.any (fun c => c.instance_id == target_id && c.owner == seat.other) then
           Except.ok ()
         else Except.error "target not found in enemy kitchen or feed")
    | ExploitEffect.Debuff _, none
    | ExploitEffect.Execute, none
    | ExploitEffect.Silence, none => Except.error "debuff/removal exploit requires a target"
    | ExploitEffect.PinSlot _, some (Target.FeedSlot slot)
    | ExploitEffect.MoveUp _, some (Target.FeedSlot slot)
    | ExploitEffect.NukeBelow _, some (Target.FeedSlot slot) =>
      if s.feed.length ≤ slot then Except.error "invalid feed slot" else Except.ok ()
    | ExploitEffect.PinSlot _, none
    | ExploitEffect.MoveUp _, none
    | ExploitEffect.NukeBelow _, none =>
      Except.error "feed manipulation exploit requires a target slot"
    | ExploitEffect.LockFeed, _
    | ExploitEffect.ShuffleFeed, _
    | ExploitEffect.WipeBottom _, _ => Except.ok ()
    | ExploitEffect.ResurrectLast, _
    | ExploitEffect.DiscountNext, _
    | ExploitEffect.SpawnShitposts _, _ => Except.ok ()
    | ExploitEffect.Tax _, _
    | ExploitEffect.ManaBurn _, _ => Except.ok ()
    | _, _ => Except.ok ()

/-- `GameState::apply_damage_targeted`. -/
def GameState.apply_damage_targeted (s : GameState) (seat : Seat) (target : Target)
    (amount : Int) : GameState × Except String Unit :=
  match target with
  | Target.Card id =>
    (match getSeat? s.players seat.other with
     | none => (s, Except.ok ())
     | some opp =>
       if contains_card opp.kitchen id then
         ({ s with players := (withSeat seat.other (fun p =>
             { p with kitchen := (update_card p.kitchen id
                 (fun c => apply_damage c amount false)) })
             s.players) }, Except.ok ())
       else
         ({ s with feed := (updateFirst
             (fun c => c.instance_id == id && c.owner == seat.other)
             (fun c => apply_damage c amount false) s.feed) }, Except.ok ()))
  | Target.FeedSlot slot =>
    ({ s with feed := modifyAt (fun c => apply_damage c amount false) slot s.feed },
     Except.ok ())
  | Target.AnyKitchen
  | Target.EnemyKitchen =>
    ({ s with players := (withSeat seat.other (fun p =>
        { p with kitchen := modifyAt (fun c => apply_damage c amount false) 0 p.kitchen })
        s.players) }, Except.ok ())

/-- The `for _ in 0..count { feed.pop() → abyss }` loop of `WipeBottom`. -/
def GameState.wipeBottom : Nat → GameState → GameState
  | 0, s => s
  | Nat.succ n, s =>
    match popBack s.feed with
    | some (card, rest) =>
      GameState.wipeBottom n (({ s with feed := rest }).to_abyss card.owner card)
    | none => GameState.wipeBottom n s

/-- The `SpawnShitposts` collection loop (`find_definition("d06")`). -/
def GameState.shitpostCollect (ext : Ext) (seat : Seat) :
    Nat → GameState → List CardInstance → GameState × List CardInstance
  | 0, s, acc => (s, acc)
  | Nat.succ n, s, acc =>
    match ext.findDef "d06" with
    | none => GameState.shitpostCollect ext seat n s acc
    | some d =>
      let (card, s') := s.new_instance_from_def d seat Location.Hand
      GameState.shitpostCollect ext seat n s' (acc ++ [card])

/-- `GameState::apply_exploit_effect`. -/
def GameState.apply_exploit_effect (ext : Ext) (s : GameState) (effect : ExploitEffect)
    (seat : Seat) (target : Option Target) : GameState × Except String Unit :=
  match effect with
  | ExploitEffect.Damage params =>
    s.apply_damage_targeted seat (target.getD params.target) params.amount
  | ExploitEffect.AreaDamageKitchen amount =>
    ({ s with players := (withSeat seat.other (fun p =>
        { p with kitchen := p.kitchen.map (fun c => apply_damage c amount false) })
        s.players) }, Except.ok ())
  | ExploitEffect.Boost amount =>
    (match target with
     | some (Target.Card id) =>
       (match getSeat? s.players seat with
        | none => (s, Except.ok ())
        | some player =>
          let (kitchen', feed') := update_card_for_owner player.kitchen s.feed seat id
            (fun c => { c with current_virality := c.current_virality + amount })
          ({ s with
              feed := feed',
              players := withSeat seat (fun p => { p with kitchen := kitchen' }) s.players },
           Except.ok ()))
     | _ => (s, Except.ok ()))
  | ExploitEffect.Debuff amount =>
    (match target with
     | some (Target.Card id) =>
       (match getSeat? s.players seat.other with
        | none => (s, Except.ok ())
        | some opp =>
          let (kitchen', feed') := update_enemy_card_for_owner opp.kitchen s.feed seat id
            (fun c => { c with current_virality := c.current_virality - amount })
          ({ s with
              feed := feed',
              players := (withSeat seat.other (fun p => { p with kitchen := kitchen' })
                s.players) }, Except.ok ()))
     | _ => (s, Except.ok ()))
  | ExploitEffect.ResurrectLast => s.resurrect_last seat
  | ExploitEffect.Protect =>
    (match target with
     | some (Target.Card id) =>
       (match getSeat? s.players seat with
        | none => (s, Except.ok ())
        | some player =>
          let (kitchen', feed') := update_card_for_owner player.kitchen s.feed seat id
            (fun c => { c with protected_until_end := true })
          ({ s with
              feed := feed',
              players := withSeat seat (fun p => { p with kitchen := kitchen' }) s.players },
           Except.ok ()))
     | _ => (s, Except.ok ()))
  | ExploitEffect.Double =>
    (match target with
     | some (Target.Card id) =>
       (match getSeat? s.players seat with
        | none => (s, Except.ok ())
        | some player =>
          let (kitchen', feed') := update_card_for_owner player.kitchen s.feed seat id
            (fun c => { c with current_virality := c.current_virality * 2 })
          ({ s with
              feed := feed',
              players := withSeat seat (fun p => { p with kitchen := kitchen' }) s.players },
           Except.ok ()))
     | _ => (s, Except.ok ()))
  | ExploitEffect.Execute =>
    (match target with
     | some (Target.Card id) =>
       (match getSeat? s.players seat.other with
        | none => (s, Except.ok ())
        | some opp =>
          match remove_card opp.kitchen id with
          | some (card, rest) =>
            let s := { s with players := withSeat seat.other (fun p =>
              { p with kitchen := rest }) s.players }
            (s.to_abyss seat.other card, Except.ok ())
          | none =>
            match s.feed.findIdx? (fun c => c.instance_id == id && c.owner == seat.other) with
            | some idx =>
              (match removeAt idx s.feed with
               | some (card, rest) =>
                 (({ s with feed := rest }).to_abyss card.owner card, Except.ok ())
               | none => (s, Except.ok ()))
            | none => (s, Except.ok ()))
     | _ => (s, Except.ok ()))
  | ExploitEffect.PinSlot slot =>
    let slot_to_pin :=
      match target with
      | some (Target.FeedSlot sl) => sl
      | _ => slot
    ({ s with players := withSeat seat.other (fun p =>
        { p with pinned_slots := p.pinned_slots ++ [slot_to_pin] }) s.players }, Except.ok ())
  | ExploitEffect.MoveUp slot =>
    let slot_to_move :=
      match target with
      | some (Target.FeedSlot sl) => sl
      | _ => slot
    s.shift_feed_up slot_to_move
  | ExploitEffect.LockFeed =>
    ({ s with players := withSeat seat.other (fun p =>
        { p with feed_locked := true }) s.players }, Except.ok ())
  | ExploitEffect.NukeBelow params =>
    (match target with
     | some (Target.FeedSlot slot) =>
       (match s.feed.get? slot with
        | some card =>
          if card.current_virality < params.threshold then
            match removeAt slot s.feed with
            | some (removed, rest) =>
              (({ s with feed := rest }).to_abyss removed.owner removed, Except.ok ())
            | none => (s, Except.ok ())
          else (s, Except.ok ())
        | none => (s, Except.ok ()))
     | _ => (s, Except.ok ()))
  | ExploitEffect.Tax params =>
    ({ s with players := withSeat seat.other (fun p =>
        { p with mana_tax_next := p.mana_tax_next + (params.amount : Int) }) s.players },
     Except.ok ())
  | ExploitEffect.ShuffleFeed => (s.fair_shuffle_feed ext, Except.ok ())
  | ExploitEffect.DiscountNext =>
    ({ s with players := withSeat seat (fun p =>
        { p with cost_discount := 1 }) s.players }, Except.ok ())
  | ExploitEffect.ManaBurn params =>
    ({ s with players := withSeat seat.other (fun p =>
        { p with mana := p.mana - params.amount }) s.players }, Except.ok ())
  | ExploitEffect.WipeBottom count => (GameState.wipeBottom count s, Except.ok ())
  | ExploitEffect.SpawnShitposts count =>
    let (s, spawned) := GameState.shitpostCollect ext seat count s []
    if spawned.isEmpty then (s, Except.ok ())
    else
      ({ s with players := withSeat seat (fun p =>
          { p with hand := p.hand ++ spawned }) s.players }, Except.ok ())
  | ExploitEffect.Silence =>
    (match target with
     | some (Target.Card id) =>
       (match getSeat? s.players seat.other with
        | none => (s, Except.ok ())
        | some opp =>
          let (kitchen', feed') := update_enemy_card_for_owner opp.kitchen s.feed seat id
            (fun c => { c with
                abilities := [],
                keywords := c.keywords.filter (fun k =>
                  match k with
                  | Keyword.Shielded _ => true
                  | _ => false) })
          ({ s with
              feed := feed',
              players := (withSeat seat.other (fun p => { p with kitchen := kitchen' })
                s.players) }, Except.ok ()))
     | _ => (s, Except.ok ()))

/-- `GameState::cast_exploit`: remove the exploit from hand (zeroing the
one-turn discount), apply its effect, then bury the spent card. -/
def GameState.cast_exploit (ext : Ext) (s : GameState) (seat : Seat) (action : ExploitAction) :
    GameState × Except String Unit :=
  match getSeat? s.players seat with
  | none => (s, Except.error "exploit not found in hand")
  | some player =>
    match remove_card player.hand action.card_id with
    | none => (s, Except.error "exploit not found in hand")
    | some (card, handRest) =>
      let s := { s with players := withSeat seat (fun p =>
        { p with hand := handRest, cost_discount := 0 }) s.players }
      match card.«class» with
      | CardKind.Meme _ => (s, Except.error "card is not an exploit")
      | CardKind.Exploit effect =>
        match s.apply_exploit_effect ext effect seat action.target with
        | (s', Except.ok _) =>
          ({ s' with players := (withSeat seat (fun p =>
              { p with abyss := p.abyss ++ [{ card with location := Location.Abyss }] })
              s'.players) }, Except.ok ())
        | (s', Except.error e) => (s', Except.error e)

/-- `GameState::resolve_exploits`: the initiative seat casts all its
exploits first, then the other seat. -/
def GameState.resolve_exploits (ext : Ext) (s : GameState) (initiative : Seat)
    (host_plan opponent_plan : TurnPlan) : GameState × Except String Unit :=
  let order :=
    match initiative with
    | Seat.Host => [(Seat.Host, host_plan), (Seat.Opponent, opponent_plan)]
    | Seat.Opponent => [(Seat.Opponent, opponent_plan), (Seat.Host, host_plan)]
  foldE (fun (sp : Seat × TurnPlan) st =>
    foldE (fun ex st' => st'.cast_exploit ext sp.1 ex) sp.2.exploits st) order s

/-! ## Turn validation (pipeline step 1) -/

/-- The cost-summation loop of `apply_turn_for_seat`: add up `card_cost`
for each listed card id, failing on the first missing card. -/
def costFold (hand : List CardInstance) (discount : Int) :
    List String → Int → Except String Int
  | [], acc => Except.ok acc
  | id :: rest, acc =>
    match card_cost hand id discount with
    | Except.error e => Except.error e
    | Except.ok c => costFold hand discount rest (acc + (c : Int))

/-- Total mana cost of a plan as `apply_turn_for_seat` computes it: the
kitchen play(s) plus every exploit, each cost discounted and floored at 0,
summed as `i32`. -/
def planCost (hand : List CardInstance) (discount : Int) (plan : TurnPlan) :
    Except String Int :=
  match costFold hand discount plan.plays_to_kitchen 0 with
  | Except.error e => Except.error e
  | Except.ok n => costFold hand discount (plan.exploits.map (fun e => e.card_id)) n

/-- `GameState::apply_turn_for_seat`: validate-and-debit the seat's plan
(all checks precede any mutation), then apply kitchen plays and validate
exploit targets. -/
def GameState.apply_turn_for_seat (ext : Ext) (s : GameState) (seat : Seat) (plan : TurnPlan) :
    GameState × Except String Unit :=
  match getSeat? s.players seat with
  | none => (s, Except.error "seat not found")
  | some player =>
    if plan.plays_to_kitchen.length > 1 then
      (s, Except.error "only one meme can be played from hand to kitchen per turn")
    else
      match planCost player.hand player.cost_discount plan with
      | Except.error e => (s, Except.error e)
      | Except.ok mana_spent =>
        if mana_spent > (player.mana : Int) then
          (s, Except.error "insufficient mana")
        else
          let s := { s with players := (withSeat seat (fun p =>
            { p with mana := p.mana - mana_spent.toNat % 256 }) s.players) }
          match foldE (fun id st => st.play_to_kitchen ext seat id) plan.plays_to_kitchen s with
          | (s, Except.error e) => (s, Except.error e)
          | (s, Except.ok _) =>
            foldE (fun a st => (st, st.validate_exploit_target_seat seat a)) plan.exploits s

/-! ## Post resolution (pipeline step 5) -/

/-- The ordering handed to `sort_by` in `resolve_posts`, as a `≤` test:
current virality descending, ties broken toward the initiative seat
(`a ≤ b` iff the source comparator does not answer `Greater`). For two
equal-virality entries of the same non-initiative seat the source
comparator is not a consistent order, so their relative order is an
internal detail of Rust's sort; a stable insertion sort over the same
test is used here. -/
def postOrderLE (initiative : Seat) (a b : Seat × CardInstance) : Bool :=
  if a.2.current_virality < b.2.current_virality then false
  else if b.2.current_virality < a.2.current_virality then true
  else a.1 == initiative

/-- Stable insertion into a sorted list. -/
def insertSorted (le : α → α → Bool) (a : α) : List α → List α
  | [] => [a]
  | b :: rest => if le a b then a :: b :: rest else b :: insertSorted le a rest

/-- Stable sort by a boolean `≤` test. -/
def sortByLE (le : α → α → Bool) : List α → List α
  | [] => []
  | a :: rest => insertSorted le a (sortByLE le rest)

/-- The per-seat collection loop of `resolve_posts`: take each posted card
out of the kitchen (or silently skip it). -/
def GameState.collectPosts (s : GameState) (seat : Seat) :
    List PostAction → List (Seat × CardInstance) × GameState
  | [] => ([], s)
  | post :: rest =>
    match s.take_from_kitchen seat [post] with
    | (some card, s') =>
      let (more, s'') := s'.collectPosts seat rest
      ((seat, card) :: more, s'')
    | (none, s') => s'.collectPosts seat rest

/-- The gatekeeper scan of `resolve_posts`: any feed card bearing a
`Gatekeeper(max_cost)` keyword pushes the insertion point past itself
whenever the incoming card's cost is below the threshold. -/
def gatekeeperAdjust (feed : List CardInstance) (cost : Nat) (start : Nat) : Nat :=
  feed.enum.foldl (fun acc p =>
    match p.2.keywords.findSome? (fun k =>
      match k with
      | Keyword.Gatekeeper gk => some gk.max_cost
      | _ => none) with
    | some max_cost => if cost < max_cost then max acc (p.1 + 1) else acc
    | none => acc) start

/-- Accumulator of the first on-post ability pass of
`apply_on_post_effects`: the (mutating) posted card plus every queued
effect. -/
structure OnPostPending where
  card : CardInstance
  spawn_tasks : List SpawnParams
  gain_mana : Nat
  ping_top : Option Int
  pending_swap : Bool
  pending_knockback : Option Nat
  pending_randomize : List (String × RandomRange)
deriving Repr

/-- First on-post pass: walk the posted card's abilities, mutating the
card in place (buffs, self-destruct markers) and queueing everything
else. `afterEmpty` records whether any feed card sits below the posted
card (the `after.is_empty()` test of the borrow split). -/
def onPostFirstPass (afterEmpty : Bool) (card : CardInstance) : OnPostPending :=
  card.abilities.foldl (fun acc ability =>
    if ability.trigger ≠ AbilityTrigger.OnPost then acc
    else
      match ability.effect with
      | AbilityEffect.BuffSelf amount =>
        { acc with card := { acc.card with
            current_virality := acc.card.current_virality + amount } }
      | AbilityEffect.SelfDestructNext =>
        { acc with card := { acc.card with
            volatile := some (acc.card.current_virality + 1000) } }
      | AbilityEffect.RandomizeVirality range =>
        { acc with pending_randomize :=
            acc.pending_randomize ++ [(acc.card.instance_id, range)] }
      | AbilityEffect.Spawn params => { acc with spawn_tasks := acc.spawn_tasks ++ [params] }
      | AbilityEffect.GainMana amount =>
        { acc with gain_mana := min (acc.gain_mana + amount) 255 }
      | AbilityEffect.PingOpponentTop amount => { acc with ping_top := some amount }
      | AbilityEffect.DamageBelow _ => acc
      | AbilityEffect.DrainBelow _ => acc
      | AbilityEffect.SwapBelow =>
        if afterEmpty then acc else { acc with pending_swap := true }
      | AbilityEffect.Knockback steps =>
        if afterEmpty then acc else { acc with pending_knockback := some steps }
      | AbilityEffect.BuffOtherKitchen _ => acc)
    { card := card, spawn_tasks := [], gain_mana := 0, ping_top := none,
      pending_swap := false, pending_knockback := none, pending_randomize := [] }

/-- The queued audited virality re-rolls of `apply_on_post_effects`. -/
def GameState.randomizePhase (ext : Ext) (s : GameState) :
    List (String × RandomRange) → GameState
  | [] => s
  | (card_id, range) :: rest =>
    let bound := (max (range.max - range.min + 1) 1).toNat
    let (roll, s) := s.record_random ext bound (RandomEventKind.RandomizeVirality card_id)
    let s := { s with feed := (updateFirst (fun c => c.instance_id == card_id)
        (fun c => { c with current_virality := range.min + (roll : Int) }) s.feed) }
    s.randomizePhase ext rest

/-- One queued spawn task: `count` catalog-backed instances pushed into
the poster's kitchen or hand. -/
def GameState.spawnOne (ext : Ext) (seat : Seat) (params : SpawnParams) :
    Nat → GameState → GameState
  | 0, s => s
  | Nat.succ n, s =>
    match ext.findDef params.variant_id with
    | none => GameState.spawnOne ext seat params n s
    | some d =>
      let target_location :=
        match params.location with
        | SpawnLocation.Kitchen => Location.Kitchen
        | SpawnLocation.Hand => Location.Hand
      let (spawned, s) := s.new_instance_from_def d seat target_location
      let s :=
        match target_location with
        | Location.Kitchen =>
          { s with players := (withSeat seat (fun p =>
              { p with kitchen := p.kitchen ++ [spawned] }) s.players) }
        | Location.Hand =>
          { s with players := (withSeat seat (fun p =>
              { p with hand := p.hand ++ [spawned] }) s.players) }
        | _ => s
      GameState.spawnOne ext seat params n s

/-- The queued spawn tasks of `apply_on_post_effects`, in order. -/
def GameState.spawnPhase (ext : Ext) (s : GameState) (seat : Seat) :
    List SpawnParams → GameState
  | [] => s
  | params :: rest => (GameState.spawnOne ext seat params params.count s).spawnPhase ext seat rest

/-- One step of the second on-post pass: DamageBelow / DrainBelow applied
to whichever card is now immediately below the settled index `idx`. -/
def belowStep (idx : Nat) (st : GameState) (ability : Ability) : GameState :=
  if ability.trigger ≠ AbilityTrigger.OnPost then st
  else
    match ability.effect with
    | AbilityEffect.DamageBelow amount =>
      { st with feed := (modifyAt (fun c => apply_damage c amount false)
          (idx + 1) st.feed) }
    | AbilityEffect.DrainBelow amount =>
      (match st.feed.get? (idx + 1) with
       | some target =>
         let drained := min amount target.current_virality
         let feed := st.feed.set (idx + 1)
           { target with current_virality := target.current_virality - drained }
         { st with feed := (modifyAt (fun c =>
             { c with current_virality := c.current_virality + drained }) idx feed) }
       | none => st)
    | _ => st

/-- The in-feed part of `apply_on_post_effects`: locate the posted card,
run the first ability pass (in-place mutations plus queue collection),
apply the positional swap/knockback, then the second (damage/drain-below)
pass. Returns the updated state together with the queued effects. -/
def GameState.onPostInFeed (s : GameState) (instance_id : String) :
    GameState × List SpawnParams × Nat × Option Int × List (String × RandomRange) :=
  match s.feed.findIdx? (fun c => c.instance_id == instance_id) with
  | none => (s, (([] : List SpawnParams), 0, (none : Option Int),
      ([] : List (String × RandomRange))))
  | some idx =>
    match s.feed.get? idx with
    | none => (s, (([] : List SpawnParams), 0, (none : Option Int),
        ([] : List (String × RandomRange))))
    | some card =>
      let afterEmpty := s.feed.length ≤ idx + 1
      let acc := onPostFirstPass afterEmpty card
      let s := { s with feed := s.feed.set idx acc.card }
      -- positional effects: swap with the card below, then knockback
      let (s, idx) :=
        if acc.pending_swap ∧ idx + 1 < s.feed.length then
          ({ s with feed := listSwap s.feed idx (idx + 1) }, idx + 1)
        else (s, idx)
      let s :=
        match acc.pending_knockback with
        | some steps =>
          let target_idx := idx + 1
          if target_idx < s.feed.length then
            { s with feed := (listSwap s.feed target_idx
                (min (target_idx + steps) (s.feed.length - 1))) }
          else s
        | none => s
      -- second pass: damage/drain whatever is now immediately below
      let abilities :=
        match s.feed.get? idx with
        | some c => c.abilities
        | none => []
      let s := abilities.foldl (belowStep idx) s
      (s, (acc.spawn_tasks, acc.gain_mana, acc.ping_top, acc.pending_randomize))

/-- The queued mana credit of `apply_on_post_effects`
(`mana.saturating_add`). -/
def GameState.manaCreditPhase (s : GameState) (seat : Seat) (gain_mana : Nat) : GameState :=
  if gain_mana > 0 then
    { s with players := (withSeat seat (fun p =>
        { p with mana := min (p.mana + gain_mana) 255 }) s.players) }
  else s

/-- The queued top-slot ping of `apply_on_post_effects`: damage the card
in the front slot if it is enemy-owned. -/
def GameState.pingTopPhase (s : GameState) (seat : Seat) (ping_top : Option Int) : GameState :=
  match ping_top with
  | some amount =>
    (match s.feed with
     | first :: rest =>
       if first.owner ≠ seat then { s with feed := apply_damage first amount false :: rest }
       else s
     | [] => s)
  | none => s

/-- The kitchen-aura pass of `apply_on_post_effects`: if any ally kitchen
card grants an other-kitchen aura, every ally kitchen card's cook rate is
overwritten to base-plus-aura. -/
def GameState.auraPhase (s : GameState) (seat : Seat) : GameState :=
  let aura_bonus :=
    match getSeat? s.players seat with
    | some player => player.kitchen.findSome? (fun (c : CardInstance) => aura_amount c.abilities)
    | none => (none : Option Int)
  match aura_bonus with
  | some amount =>
    { s with players := (withSeat seat (fun p =>
        { p with kitchen := p.kitchen.map (fun ally =>
            { ally with cook_rate := BASE_COOK + amount }) }) s.players) }
  | none => s

/-- The queued-effect tail of `apply_on_post_effects`: mana credit,
audited virality re-rolls, spawns, top-slot ping, kitchen aura — in the
source's order. -/
def GameState.onPostQueued (ext : Ext) (s : GameState) (seat : Seat)
    (queued : List SpawnParams × Nat × Option Int × List (String × RandomRange)) :
    GameState :=
  let (spawn_tasks, gain_mana, ping_top, pending_randomize) := queued
  let s := s.manaCreditPhase seat gain_mana
  let s := s.randomizePhase ext pending_randomize
  let s := s.spawnPhase ext seat spawn_tasks
  let s := s.pingTopPhase seat ping_top
  s.auraPhase seat

/-- `GameState::apply_on_post_effects`: the on-post cascade of the card
just posted at `instance_id`, evaluated against its current position. -/
def GameState.apply_on_post_effects (ext : Ext) (s : GameState) (seat : Seat)
    (instance_id : String) : GameState :=
  let (s, queued) := s.onPostInFeed instance_id
  s.onPostQueued ext seat queued

/-- Capacity enforcement after a single insertion: when the feed exceeds
`FEED_SIZE`, pop the last slot into its owner's Abyss. -/
def GameState.evictOverflow (s : GameState) : GameState :=
  if s.feed.length > FEED_SIZE then
    match popBack s.feed with
    | some (removed, rest) => ({ s with feed := rest }).to_abyss removed.owner removed
    | none => s
  else s

/-- Insertion-point computation, insertion and on-post cascade for one
poster inside the `resolve_posts` loop: front by default, end for Heavy,
clamped past any gatekeeper the card cannot afford. -/
def GameState.postInsertCascade (ext : Ext) (s : GameState) (entry : Seat × CardInstance) :
    GameState :=
  let seat := entry.1
  let card := entry.2
  let target_index := if card.keywords.contains Keyword.Heavy then s.feed.length else 0
  let target_index := gatekeeperAdjust s.feed card.cost target_index
  let card_id := card.instance_id
  let insert_at := min target_index s.feed.length
  let s := { s with feed := insertAt insert_at card s.feed }
  s.apply_on_post_effects ext seat card_id

/-- One poster's processing inside the `resolve_posts` loop: insert and
cascade, evict the last slot to its owner's Abyss if the feed now exceeds
capacity, and reindex the feed. -/
def GameState.postOne (ext : Ext) (s : GameState) (entry : Seat × CardInstance) : GameState :=
  ((s.postInsertCascade ext entry).evictOverflow).reindex_feed

/-- The per-entry loop of `resolve_posts`. -/
def GameState.postAll (ext : Ext) (s : GameState) :
    List (Seat × CardInstance) → GameState
  | [] => s
  | e :: rest => (s.postOne ext e).postAll ext rest

/-- `GameState::resolve_posts` (skipped entirely when either feed lock is
active): collect both seats' postable kitchen cards, order them by
virality descending with ties toward the initiative seat, and insert them
one at a time. -/
def GameState.resolve_posts (ext : Ext) (s : GameState)
    (host_posts opponent_posts : List PostAction) : GameState × Except String Unit :=
  if s.feed_lock_active then (s, Except.ok ())
  else
    let (host_entries, s) := s.collectPosts Seat.Host host_posts
    let (opp_entries, s) := s.collectPosts Seat.Opponent opponent_posts
    let entries := host_entries ++ opp_entries
    if entries.isEmpty then (s, Except.ok ())
    else (s.postAll ext (sortByLE (postOrderLE s.initiative) entries), Except.ok ())

/-! ## Scoring, decay, cleanup (pipeline steps 6–8) -/

/-- The per-card feed yield: `(BASE_FEED_YIELD + index * FEED_YIELD_STEP)
* yield_rate`. -/
def creditOf (index : Nat) (yield_rate : Int) : Int :=
  (BASE_FEED_YIELD + (index : Int) * FEED_YIELD_STEP) * yield_rate

/-- The indexed loop of `apply_feed_yield`, crediting each feed card's
owner. -/
def yieldGo : List PlayerState → Nat → List CardInstance → List PlayerState
  | players, _, [] => players
  | players, index, card :: rest =>
    yieldGo (withSeat card.owner (fun p =>
      { p with score := p.score + creditOf index card.yield_rate }) players) (index + 1) rest

/-- `GameState::apply_feed_yield`. -/
def GameState.apply_feed_yield (s : GameState) : GameState :=
  { s with players := yieldGo s.players 0 s.feed }

/-- The per-kitchen-card step of `apply_cook_and_decay`: tick the freeze
counter or cook, heal-kitchen reset, volatile decay, clear end-of-turn
protection. -/
def cookCard (card : CardInstance) : CardInstance :=
  let card :=
    if 0 < card.frozen_turns then { card with frozen_turns := card.frozen_turns - 1 }
    else { card with current_virality := card.current_virality + card.cook_rate }
  let card :=
    if card.keywords.contains Keyword.HealKitchen then
      { card with current_virality := card.base_virality }
    else card
  let card :=
    match card.volatile with
    | some decay => { card with current_virality := card.current_virality - decay }
    | none => card
  { card with protected_until_end := false }

/-- `GameState::apply_cook_and_decay`. -/
def GameState.apply_cook_and_decay (s : GameState) : GameState :=
  let s := { s with players := s.players.map (fun (p : PlayerState) =>
    { p with kitchen := p.kitchen.map cookCard }) }
  { s with feed := s.feed.map (fun (c : CardInstance) =>
      match c.volatile with
      | some decay => { c with current_virality := c.current_virality - decay }
      | none => c) }

/-- `GameState::cleanup_board`: `feed.retain(virality > 0)` (dead feed
cards are removed from the feed without being pushed to any abyss), the
kitchen drain that relocates dead kitchen cards to the owner's Abyss, then
the feed reindex. -/
def GameState.cleanup_board (s : GameState) : GameState :=
  let s := { s with feed := s.feed.filter (fun (c : CardInstance) => 0 < c.current_virality) }
  let s := { s with players := s.players.map (fun (p : PlayerState) =>
    { p with
      kitchen := ((p.kitchen.filter (fun (c : CardInstance) =>
        decide (0 < c.current_virality))).map
        (fun (c : CardInstance) => { c with location := Location.Kitchen })),
      abyss := (p.abyss ++ ((p.kitchen.filter (fun (c : CardInstance) =>
        decide (c.current_virality ≤ 0))).map
        (fun (c : CardInstance) => { c with location := Location.Abyss }))) }) }
  s.reindex_feed

/-! ## Turn advance and the commit-reveal machine -/

/-- `PlayerState::reset_for_new_turn`: raise max mana up to the cap,
refresh mana minus the accrued tax (`as u8` truncates mod 256), clear
tax/pins/feed-lock. -/
def PlayerState.reset_for_new_turn (p : PlayerState) : PlayerState :=
  let p := if p.max_mana < MANA_CAP then { p with max_mana := p.max_mana + 1 } else p
  let penalty := (max p.mana_tax_next 0).toNat % 256
  { p with
    mana := p.max_mana - penalty,
    mana_tax_next := 0,
    pinned_slots := [],
    feed_locked := false }

/-- `PlayerState::draw_card`: pop the top of the deck into the hand,
overflowing to the Abyss when the hand is full; an empty deck is a no-op. -/
def PlayerState.draw_card (p : PlayerState) : PlayerState × Except String Unit :=
  match popBack p.deck with
  | none => (p, Except.ok ())
  | some (card, deckRest) =>
    let card := { card with location := Location.Hand, played_turn := 0 }
    if p.hand.length ≥ MAX_HAND_SIZE then
      ({ p with
          deck := deckRest,
          abyss := p.abyss ++ [{ card with location := Location.Abyss }] }, Except.ok ())
    else
      ({ p with deck := deckRest, hand := p.hand ++ [card] }, Except.ok ())

/-- The per-player loop at the end of `resolve_turn`: clear the commit,
run the new-turn reset, draw one card. -/
def endTurnPlayers : List PlayerState → List PlayerState × Except String Unit
  | [] => ([], Except.ok ())
  | p :: rest =>
    let p := ({ p with commit := none } : PlayerState).reset_for_new_turn
    match p.draw_card with
    | (p, Except.ok _) =>
      let (rest', r) := endTurnPlayers rest
      (p :: rest', r)
    | (p, Except.error e) => (p :: rest, Except.error e)

/-- `GameState::resolve_turn`: the whole fixed-order pipeline. -/
def GameState.resolve_turn (ext : Ext) (s : GameState) (host_plan opponent_plan : TurnPlan) :
    GameState × Except String Unit :=
  let s := { s with phase := Phase.Resolving }
  match s.apply_turn_for_seat ext Seat.Host host_plan with
  | (s, Except.error e) => (s, Except.error e)
  | (s, Except.ok _) =>
  match s.apply_turn_for_seat ext Seat.Opponent opponent_plan with
  | (s, Except.error e) => (s, Except.error e)
  | (s, Except.ok _) =>
  let initiative := s.initiative
  match s.resolve_exploits ext initiative host_plan opponent_plan with
  | (s, Except.error e) => (s, Except.error e)
  | (s, Except.ok _) =>
  match s.resolve_posts ext host_plan.posts opponent_plan.posts with
  | (s, Except.error e) => (s, Except.error e)
  | (s, Except.ok _) =>
  let s := s.apply_feed_yield
  let s := s.apply_cook_and_decay
  let s := s.cleanup_board
  match s.check_win_condition with
  | some winner => ({ s with winner := some winner, phase := Phase.GameOver }, Except.ok ())
  | none =>
    let s := { s with turn := s.turn + 1, initiative := s.initiative.other }
    match endTurnPlayers s.players with
    | (players', Except.error e) => ({ s with players := players' }, Except.error e)
    | (players', Except.ok _) =>
      ({ s with players := players', phase := Phase.Commit }, Except.ok ())

/-- `GameState::process_based_calls`. -/
def GameState.process_based_calls (s : GameState) (host_based opp_based : Bool) : GameState :=
  match host_based, opp_based with
  | true, true => { s with stakes := max (min (s.stakes * 2) 255) 1 }
  | true, false =>
    (match s.player_node Seat.Host with
     | some node => { s with pending_stakes := some node }
     | none => s)
  | false, true =>
    (match s.player_node Seat.Opponent with
     | some node => { s with pending_stakes := some node }
     | none => s)
  | false, false => s

/-- `GameState::resolve_if_ready`. -/
def GameState.resolve_if_ready (ext : Ext) (s : GameState) : GameState × Except String Unit :=
  if s.ready_to_resolve then
    let host_plan := (s.plan_for Seat.Host).getD TurnPlan.default
    let opp_plan := (s.plan_for Seat.Opponent).getD TurnPlan.default
    let s := s.process_based_calls host_plan.based opp_plan.based
    if s.pending_stakes.isSome then ({ s with phase := Phase.StakePending }, Except.ok ())
    else
      let s := { s with phase := Phase.Resolving }
      s.resolve_turn ext host_plan opp_plan
  else ({ s with phase := Phase.Reveal }, Except.ok ())

/-- `GameState::record_reveal`: recompute the expected commitment from
(plan, salt); any prior commit must match the current turn and that hash,
else fail without mutating; then store the revealed plan and fire the
readiness check. -/
def GameState.record_reveal (ext : Ext) (s : GameState) (seat : Seat) (plan : TurnPlan)
    (salt : String) : GameState × Except String Unit :=
  if s.phase = Phase.GameOver then (s, Except.error "game is over")
  else
    let expected_hash := ext.commitment_for plan salt
    match s.players.find? (fun p => p.seat == seat) with
    | none => (s, Except.error "seat not found")
    | some player =>
      let newCommit : TurnCommit :=
        { hash := expected_hash, salt := some salt, revealed := some plan, turn := s.turn }
      let installed := { s with players := (updateFirst (fun p => p.seat == seat)
        (fun (p : PlayerState) => { p with commit := some newCommit }) s.players) }
      match player.commit with
      | some commit =>
        if commit.turn ≠ s.turn then (s, Except.error "commit turn mismatch")
        else if commit.hash ≠ expected_hash then (s, Except.error "commit hash mismatch")
        else installed.resolve_if_ready ext
      | none => installed.resolve_if_ready ext

/-- `GameState::accept_based`: requires a pending claim (from either
seat — the seat argument is ignored); doubles the stakes with `u8`
saturation, clears the claim, and resolves immediately when both plans
are already revealed, else returns to Commit. -/
def GameState.accept_based (ext : Ext) (s : GameState) (_seat : Seat) :
    GameState × Except String Unit :=
  if s.pending_stakes.isNone then (s, Except.error "no pending stakes to accept")
  else
    let s := { s with stakes := max (min (s.stakes * 2) 255) 1, pending_stakes := none }
    if s.ready_to_resolve then
      let host_plan := (s.plan_for Seat.Host).getD TurnPlan.default
      let opp_plan := (s.plan_for Seat.Opponent).getD TurnPlan.default
      let s := { s with phase := Phase.Resolving }
      s.resolve_turn ext host_plan opp_plan
    else if s.phase ≠ Phase.GameOver then ({ s with phase := Phase.Commit }, Except.ok ())
    else (s, Except.ok ())

/-! ## Deck construction and the starting hand (`game.rs` tail) -/

/-- Whether a card instance is a Meme (`matches!(c.class, CardKind::Meme(_))`). -/
def isMemeCard (c : CardInstance) : Bool :=
  match c.«class» with
  | CardKind.Meme _ => true
  | CardKind.Exploit _ => false

/-- The cycle loop of `PlayerState::draw_starting_hand` for a 2-card hand.
`fuel` is the source's explicit `safety` counter (initialised to
`deck.len() + 2`). Each iteration pops the top two cards (the source pops
`b` then `a` and reverses, so the pulled group is `[a, b]` in original
deck order); a group with a Meme goes to the hand (overflow to Abyss) and
the accumulated cycles are published in a StartingHandEvent; a group
without one is re-inserted at index 0 — the bottom of the draw stack — in
original order, and the attempt is recorded as a cycle. -/
def startingLoop (seat : Seat) :
    Nat → List CardInstance → List CardInstance → List CardInstance →
    List StartingHandCycle →
    List CardInstance × List CardInstance × List CardInstance × List GameEvent ×
      Except String Unit
  | 0, deck, hand, abyss, _ =>
    (deck, hand, abyss, [],
     Except.error "unable to produce a valid starting hand containing a meme")
  | Nat.succ fuel, deck, hand, abyss, cycles =>
    if deck.length < 2 then
      (deck, hand, abyss, [], Except.error "deck too small for starting hand")
    else
      match deck.reverse with
      | b :: a :: restRev =>
        let pulled := [a, b]
        let has_meme := pulled.any isMemeCard
        let ids := pulled.map (fun c => c.instance_id)
        if has_meme then
          let dealt := pulled.foldl (fun (acc : List CardInstance × List CardInstance) card =>
            let card := { card with location := Location.Hand, played_turn := 0 }
            if acc.1.length ≥ MAX_HAND_SIZE then
              (acc.1, acc.2 ++ [{ card with location := Location.Abyss }])
            else (acc.1 ++ [card], acc.2)) (hand, abyss)
          (restRev.reverse, dealt.1, dealt.2,
           [{ event := GameEventKind.StartingHand
                { seat := seat, cycles := cycles, chosen := ids } }],
           Except.ok ())
        else
          startingLoop seat fuel (a :: b :: restRev.reverse) hand abyss
            (cycles ++ [{ card_ids := ids }])
      | _ => (deck, hand, abyss, [], Except.error "deck empty")

/-- The plain `for _ in 0..count { draw_card()? }` path of
`draw_starting_hand` for counts other than 2. -/
def PlayerState.drawN (p : PlayerState) : Nat → PlayerState
  | 0 => p
  | Nat.succ n => PlayerState.drawN (p.draw_card).1 n

/-- `PlayerState::draw_starting_hand`. -/
def PlayerState.draw_starting_hand (p : PlayerState) (count : Nat) (events : List GameEvent) :
    PlayerState × List GameEvent × Except String Unit :=
  if count = 0 then (p, events, Except.ok ())
  else if count = 2 then
    let r := startingLoop p.seat (p.deck.length + 2) p.deck p.hand p.abyss []
    let (deck, hand, abyss, newEvents, res) := r
    ({ p with deck := deck, hand := hand, abyss := abyss }, events ++ newEvents, res)
  else (p.drawN count, events, Except.ok ())

/-- `PlayerState::new`. -/
def PlayerState.new (seat : Seat) (node_id : String) (deck : List CardInstance) : PlayerState :=
  { seat := seat, node_id := node_id, deck := deck, hand := [], kitchen := [], abyss := [],
    mana := STARTING_MANA, max_mana := STARTING_MANA, score := 0, cost_discount := 0,
    mana_tax_next := 0, commit := none, feed_locked := false, pinned_slots := [] }

/-- `game.rs::instantiate_card` (threads the instance allocator). -/
def instantiate_card (next_instance : Nat) (d : CardDefinition) (owner : Seat) :
    CardInstance × Nat :=
  let instance_id := d.id ++ "-" ++ toString next_instance
  (match d.«class» with
   | CardKind.Meme meme =>
     { instance_id := instance_id, variant_id := d.id, name := d.name, owner := owner,
       cost := d.cost, «class» := d.«class», base_virality := meme.base_virality,
       current_virality := meme.base_virality, cook_rate := meme.cook_rate,
       yield_rate := meme.yield_rate, keywords := meme.keywords,
       abilities := meme.abilities, volatile := meme.volatile,
       frozen_turns := meme.initial_freeze.getD 0, protected_until_end := false,
       shield := (meme.keywords.findSome? (fun k =>
         match k with
         | Keyword.Shielded sk => some sk.amount
         | _ => none)).getD 0,
       played_turn := 0, location := Location.Deck }
   | CardKind.Exploit _ =>
     { instance_id := instance_id, variant_id := d.id, name := d.name, owner := owner,
       cost := d.cost, «class» := d.«class», base_virality := 0, current_virality := 0,
       cook_rate := 0, yield_rate := 0, keywords := [], abilities := [], volatile := none,
       frozen_turns := 0, protected_until_end := false, shield := 0, played_turn := 0,
       location := Location.Deck },
   next_instance + 1)

/-- `game.rs::instantiate_deck`. -/
def instantiate_deck (catalog : List CardDefinition) (ids : List String) (owner : Seat)
    (next_instance : Nat) : Except String (List CardInstance × Nat) :=
  match ids with
  | [] => Except.ok ([], next_instance)
  | id :: rest =>
    match catalog.find? (fun c => c.id == id) with
    | none => Except.error ("card " ++ id ++ " not found")
    | some d =>
      let (card, ni) := instantiate_card next_instance d owner
      match instantiate_deck catalog rest owner ni with
      | Except.ok (deck, ni') => Except.ok (card :: deck, ni')
      | Except.error e => Except.error e

/-- `game.rs::validate_deck_composition`: count Memes and Exploits,
failing on the first id missing from the catalog. -/
def validate_deck_composition (catalog : List CardDefinition) (ids : List String) :
    Except String (Nat × Nat) :=
  match ids with
  | [] => Except.ok (0, 0)
  | id :: rest =>
    match catalog.find? (fun c => c.id == id) with
    | none => Except.error ("card " ++ id ++ " not found")
    | some d =>
      match validate_deck_composition catalog rest with
      | Except.error e => Except.error e
      | Except.ok me =>
        match d.«class» with
        | CardKind.Meme _ => Except.ok (me.1 + 1, me.2)
        | CardKind.Exploit _ => Except.ok (me.1, me.2 + 1)

/-- The deck-validity test of `build_game` (size and composition). -/
def deckValid (deck : List String) (memes exploits : Nat) : Bool :=
  (deck.length == MAX_DECK_SIZE) && (memes == MEME_LIMIT) && (exploits == EXPLOIT_LIMIT)

/-- `game.rs::build_game`: instantiate and fair-shuffle both decks, deal
starting hands to valid sides, and assemble the initial GameState; an
invalid deck still yields a match, started in GameOver with the winner
decided by which side was valid. -/
def build_game (ext : Ext) (catalog : List CardDefinition) (next_instance : Nat) (seed : Nat)
    (host_deck opponent_deck : List String) (opponent_id : String) :
    Except String GameState :=
  match validate_deck_composition catalog host_deck with
  | Except.error e => Except.error e
  | Except.ok hostCounts =>
  match validate_deck_composition catalog opponent_deck with
  | Except.error e => Except.error e
  | Except.ok oppCounts =>
  let host_valid := deckValid host_deck hostCounts.1 hostCounts.2
  let opponent_valid := deckValid opponent_deck oppCounts.1 oppCounts.2
  let rng0 := FairRandomState.new ext seed
  match instantiate_deck catalog host_deck Seat.Host next_instance with
  | Except.error e => Except.error e
  | Except.ok hostDeckNi =>
  let (rng1, host_deck_instances) :=
    rng0.shuffle ext hostDeckNi.1 0 (RandomEventKind.ShuffleDeck Seat.Host)
  match instantiate_deck catalog opponent_deck Seat.Opponent hostDeckNi.2 with
  | Except.error e => Except.error e
  | Except.ok oppDeckNi =>
  let (rng2, opp_deck_instances) :=
    rng1.shuffle ext oppDeckNi.1 0 (RandomEventKind.ShuffleDeck Seat.Opponent)
  let host := PlayerState.new Seat.Host ext.ourNode host_deck_instances
  let opponent := PlayerState.new Seat.Opponent opponent_id opp_deck_instances
  let events := rng2.history.map (fun event =>
    ({ event := GameEventKind.Random event } : GameEvent))
  match (if host_valid then host.draw_starting_hand STARTING_HAND events
         else (host, events, Except.ok ())) with
  | (_, _, Except.error e) => Except.error e
  | (host, events, Except.ok _) =>
  match (if opponent_valid then opponent.draw_starting_hand STARTING_HAND events
         else (opponent, events, Except.ok ())) with
  | (_, _, Except.error e) => Except.error e
  | (opponent, events, Except.ok _) =>
  let game : GameState :=
    { feed := [], players := [host, opponent], turn := 0, initiative := Seat.Host,
      phase := Phase.Commit, stakes := 1, pending_stakes := none, winner := none,
      game_seed := seed, next_instance := oppDeckNi.2, rng := rng2, events := events }
  if host_valid && opponent_valid then Except.ok game
  else
    Except.ok { game with
      phase := Phase.GameOver,
      winner :=
        if !host_valid && opponent_valid then some Seat.Opponent
        else if host_valid && !opponent_valid then some Seat.Host
        else none }

/-! ## Derived predicates and concrete fixtures

`WellIndexedFeed` states the feed-location coherence that `reindex_feed`
establishes. The `fixture*` definitions below are concrete sample inputs
used to witness the theorems on explicit data; `fixtureExt` is one
concrete instantiation of the external-oracle record. -/

/-- Every feed card's stored location matches its slot index. -/
def WellIndexedFeed (feed : List CardInstance) : Prop :=
  ∀ i (h : i < feed.length), (feed.get ⟨i, h⟩).location = Location.Feed ⟨i⟩

/-- A concrete oracle record for witnesses: the PCG draw is replaced by a
bounded arithmetic sample and the hashes by injective-enough string
tagging. -/
def fixtureExt : Ext :=
  { findDef := fun _ => none,
    draw := fun seed count bound => (seed + count) % bound,
    commitment_for := fun _ salt => "H" ++ salt,
    contribution_commitment := fun v sa => toString v ++ "|" ++ sa,
    contribution_signature := fun c _ => c,
    derive_seed := fun b l => b + l.length,
    ourNode := "host.node" }

/-- A meme blueprint for fixtures. -/
def fixtureBlueprint (vir yr : Int) : MemeBlueprint :=
  { base_virality := vir, cook_rate := 1, yield_rate := yr, keywords := [], abilities := [],
    volatile := none, initial_freeze := none }

/-- A meme card instance for fixtures. -/
def fixtureMeme (id : String) (owner : Seat) (cost : Nat) (vir yr : Int) : CardInstance :=
  { instance_id := id, variant_id := "v-" ++ id, name := id, owner := owner, cost := cost,
    «class» := CardKind.Meme (fixtureBlueprint vir yr), base_virality := vir,
    current_virality := vir, cook_rate := 1, yield_rate := yr, keywords := [],
    abilities := [], volatile := none, frozen_turns := 0, protected_until_end := false,
    shield := 0, played_turn := 0, location := Location.Deck }

/-- An exploit card instance for fixtures. -/
def fixtureExploit (id : String) (owner : Seat) (cost : Nat) : CardInstance :=
  { instance_id := id, variant_id := "v-" ++ id, name := id, owner := owner, cost := cost,
    «class» := CardKind.Exploit ExploitEffect.ResurrectLast, base_virality := 0,
    current_virality := 0, cook_rate := 0, yield_rate := 0, keywords := [], abilities := [],
    volatile := none, frozen_turns := 0, protected_until_end := false, shield := 0,
    played_turn := 0, location := Location.Deck }

/-- Base host player for fixtures. -/
def fixtureHost : PlayerState := PlayerState.new Seat.Host "host.node" []

/-- Base opponent player for fixtures. -/
def fixtureOpp : PlayerState := PlayerState.new Seat.Opponent "opp.node" []

/-- Base two-player game state for fixtures. -/
def fixtureState : GameState :=
  { feed := [], players := [fixtureHost, fixtureOpp], turn := 0, initiative := Seat.Host,
    phase := Phase.Commit, stakes := 1, pending_stakes := none, winner := none,
    game_seed := 0, next_instance := 0,
    rng := { host_seed := 7, opponent_seed := 9, host_draws := 2, opponent_draws := 3,
             history := [] },
    events := [] }

/-- C1 fixture: the host holds one 5-cost exploit but only 2 mana. -/
def fixtureOverState : GameState :=
  { fixtureState with players :=
      [{ fixtureHost with hand := [fixtureExploit "x" Seat.Host 5] }, fixtureOpp] }

/-- C1 fixture: a plan casting that over-priced exploit. -/
def fixtureOverPlan : TurnPlan :=
  { plays_to_kitchen := [], posts := [],
    exploits := [{ card_id := "x", target := none }], based := false }

/-- C2 fixture: a stale unrevealed commit whose hash cannot be reproduced
by `fixtureExt.commitment_for`. -/
def fixtureStaleCommit : TurnCommit :=
  { hash := "Z", salt := none, revealed := none, turn := 0 }

/-- C2 fixture: the host holds that unrevealed commit. -/
def fixtureCommitState : GameState :=
  { fixtureState with players :=
      [{ fixtureHost with commit := some fixtureStaleCommit }, fixtureOpp] }

/-- A plan with two kitchen plays, which `apply_turn_for_seat` always
rejects. -/
def fixtureTwoPlayPlan : TurnPlan :=
  { plays_to_kitchen := ["a", "b"], posts := [], exploits := [], based := false }

/-- A revealed commit of the default (empty) plan under `fixtureExt`. -/
def fixtureRevealedDefault : TurnCommit :=
  { hash := "Hs", salt := some "s", revealed := some TurnPlan.default, turn := 0 }

/-- A revealed commit of the invalid two-play plan under `fixtureExt`. -/
def fixtureRevealedTwoPlay : TurnCommit :=
  { hash := "Hs", salt := some "s", revealed := some fixtureTwoPlayPlan, turn := 0 }

/-- C9 fixture: the opponent has already revealed, so a host reveal
triggers resolution. -/
def fixtureRevealReadyState : GameState :=
  { fixtureState with players :=
      [{ fixtureHost with commit := none },
       { fixtureOpp with commit := some fixtureRevealedDefault }] }

/-- C10 fixture: a stake claim is pending and both plans are already
revealed, the host's being invalid, so accepting triggers a failing
resolution. -/
def fixtureStakeReadyState : GameState :=
  { fixtureState with
    pending_stakes := some "host.node",
    phase := Phase.StakePending,
    players :=
      [{ fixtureHost with commit := some fixtureRevealedTwoPlay },
       { fixtureOpp with commit := some fixtureRevealedDefault }] }

/-- C10 fixture: a pending claim with no reveals yet. -/
def fixtureStakePendingState : GameState :=
  { fixtureState with pending_stakes := some "host.node", phase := Phase.StakePending }

/-- C5 fixture: a dead feed card. -/
def fixtureDeadFeedCard : CardInstance :=
  { fixtureMeme "deadfeed" Seat.Host 1 0 1 with location := Location.Feed ⟨0⟩ }

/-- C5 fixture: a dead kitchen card. -/
def fixtureDeadKitchenCard : CardInstance :=
  { fixtureMeme "deadkitchen" Seat.Host 1 0 1 with location := Location.Kitchen }

/-- C5 fixture: one dead feed card and one dead kitchen card, all abysses
empty. -/
def fixtureDeadState : GameState :=
  { fixtureState with
    feed := [fixtureDeadFeedCard],
    players := [{ fixtureHost with kitchen := [fixtureDeadKitchenCard] }, fixtureOpp] }

/-- C6 fixture: two zero-yield feed cards in slots 0 and 1 with different
owners. -/
def fixtureZeroYieldState : GameState :=
  { fixtureState with feed :=
      [{ fixtureMeme "y0" Seat.Host 1 3 0 with location := Location.Feed ⟨0⟩ },
       { fixtureMeme "y1" Seat.Opponent 1 3 0 with location := Location.Feed ⟨1⟩ }] }

/-- C7 fixture: a three-card deck whose top two cards are exploits (the
meme sits at the bottom). The draw stack pops from the end, so the first
pulled group is the two exploits. -/
def fixtureC7Deck : List CardInstance :=
  [fixtureMeme "m" Seat.Host 1 3 1, fixtureExploit "e1" Seat.Host 1,
   fixtureExploit "e2" Seat.Host 1]

/-- C7 fixture player. -/
def fixtureC7Player : PlayerState := { fixtureHost with deck := fixtureC7Deck }


/-- Modelled from the spec (claim C7 as stated): the starting-hand cycle
loop with every rejected group returned to the TOP of the deck in its
original order, everything else exactly as the engine does. -/
def startingLoopTopReturn (seat : Seat) :
    Nat → List CardInstance → List CardInstance → List CardInstance →
    List StartingHandCycle →
    List CardInstance × List CardInstance × List CardInstance × List GameEvent ×
      Except String Unit
  | 0, deck, hand, abyss, _ =>
    (deck, hand, abyss, [],
     Except.error "unable to produce a valid starting hand containing a meme")
  | Nat.succ fuel, deck, hand, abyss, cycles =>
    if deck.length < 2 then
      (deck, hand, abyss, [], Except.error "deck too small for starting hand")
    else
      match deck.reverse with
      | b :: a :: restRev =>
        let pulled := [a, b]
        let has_meme := pulled.any isMemeCard
        let ids := pulled.map (fun c => c.instance_id)
        if has_meme then
          let dealt := pulled.foldl (fun (acc : List CardInstance × List CardInstance) card =>
            let card := { card with location := Location.Hand, played_turn := 0 }
            if acc.1.length ≥ MAX_HAND_SIZE then
              (acc.1, acc.2 ++ [{ card with location := Location.Abyss }])
            else (acc.1 ++ [card], acc.2)) (hand, abyss)
          (restRev.reverse, dealt.1, dealt.2,
           [{ event := GameEventKind.StartingHand
                { seat := seat, cycles := cycles, chosen := ids } }],
           Except.ok ())
        else
          startingLoopTopReturn seat fuel (restRev.reverse ++ [a, b]) hand abyss
            (cycles ++ [{ card_ids := ids }])
      | _ => (deck, hand, abyss, [], Except.error "deck empty")

/-- Modelled from the amended claim: repeatedly pull the top two cards of
the draw stack as a group (in deck order); a group containing a Meme is
dealt into the hand (overflowing to the Abyss) and the accumulated cycle
log is published; a group with no Meme is returned to the BOTTOM of the
deck in its original order and the attempt is logged as a cycle; fewer
than two remaining cards, or an exhausted attempt budget, is an error. -/
def startingHandSpecLoop (seat : Seat) :
    Nat → List CardInstance → List CardInstance → List CardInstance →
    List StartingHandCycle →
    List CardInstance × List CardInstance × List CardInstance × List GameEvent ×
      Except String Unit
  | 0, deck, hand, abyss, _ =>
    (deck, hand, abyss, [],
     Except.error "unable to produce a valid starting hand containing a meme")
  | Nat.succ fuel, deck, hand, abyss, cycles =>
    if deck.length < 2 then
      (deck, hand, abyss, [], Except.error "deck too small for starting hand")
    else
      let group := deck.drop (deck.length - 2)
      let remaining := deck.take (deck.length - 2)
      if group.any isMemeCard then
        let dealt := group.foldl (fun (acc : List CardInstance × List CardInstance) card =>
          let card := { card with location := Location.Hand, played_turn := 0 }
          if acc.1.length ≥ MAX_HAND_SIZE then
            (acc.1, acc.2 ++ [{ card with location := Location.Abyss }])
          else (acc.1 ++ [card], acc.2)) (hand, abyss)
        (remaining, dealt.1, dealt.2,
         [{ event := GameEventKind.StartingHand
              { seat := seat, cycles := cycles,
                chosen := group.map (fun c => c.instance_id) } }],
         Except.ok ())
      else
        startingHandSpecLoop seat fuel (group ++ remaining) hand abyss
          (cycles ++ [{ card_ids := group.map (fun c => c.instance_id) }])

/-- The amended claim's whole starting-hand draw, built on the spec loop
with the engine's attempt budget. -/
def drawStartingHandSpec (p : PlayerState) (events : List GameEvent) :
    PlayerState × List GameEvent × Except String Unit :=
  let r := startingHandSpecLoop p.seat (p.deck.length + 2) p.deck p.hand p.abyss []
  ({ p with deck := r.1, hand := r.2.1, abyss := r.2.2.1 }, events ++ r.2.2.2.1, r.2.2.2.2)

/-- The commit record `record_reveal` installs on a successful reveal. -/
def revealCommit (ext : Ext) (plan : TurnPlan) (salt : String) (turn : Nat) : TurnCommit :=
  { hash := ext.commitment_for plan salt, salt := some salt, revealed := some plan,
    turn := turn }

/-! ## C1: mana overcommit rejects the seat's whole turn -/

/-- Per-owner yield totals of an indexed feed suffix: the sum of
`creditOf slot yield_rate` over the cards the seat owns. -/
def yieldSum (seat : Seat) (start : Nat) (feed : List CardInstance) : Int :=
  (((feed.enumFrom start).filter (fun p => p.2.owner == seat)).map
    (fun p => creditOf p.1 p.2.yield_rate)).sum

/-! ## List-helper length lemmas -/

@[simp] theorem updateFirst_length (p : α → Bool) (f : α → α) :
    ∀ l : List α, (updateFirst p f l).length = l.length := by
  intro l
  induction l with
  | nil => rfl
  | cons a rest ih =>
    simp only [updateFirst]
    split <;> simp [ih]

@[simp] theorem listSwap_length (l : List α) (i j : Nat) :
    (listSwap l i j).length = l.length := by
  unfold listSwap
  split <;> simp

theorem insertAt_length (a : α) :
    ∀ (n : Nat) (l : List α), n ≤ l.length → (insertAt n a l).length = l.length + 1 := by
  intro n l
  induction l generalizing n with
  | nil =>
    intro h
    have hn : n = 0 := Nat.le_zero.mp h
    subst hn; rfl
  | cons b rest ih =>
    intro h
    cases n with
    | zero => rfl
    | succ m =>
      simp only [insertAt, List.length_cons]
      rw [ih m (by simpa using h)]

@[simp] theorem modifyAt_length (f : α → α) :
    ∀ (n : Nat) (l : List α), (modifyAt f n l).length = l.length := by
  intro n l
  induction l generalizing n with
  | nil => cases n <;> rfl
  | cons a rest ih => cases n with
    | zero => rfl
    | succ m => simp [modifyAt, ih]

@[simp] theorem withSeat_length (seat : Seat) (f : PlayerState → PlayerState)
    (players : List PlayerState) : (withSeat seat f players).length = players.length := by
  simp [withSeat]

/-- C1: for any state and seat whose revealed plan's total cost (each card
cost reduced by the seat's one-turn discount, floored at 0, summed over
the kitchen play and all exploits) exceeds that seat's available mana,
`apply_turn_for_seat` rejects the seat's entire turn with an error and
mutates nothing: no mana is debited and no cards move. -/
theorem apply_turn_rejects_overcommit (ext : Ext) (s : GameState) (seat : Seat)
    (plan : TurnPlan) (player : PlayerState) (cost : Int)
    (hp : getSeat? s.players seat = some player)
    (hc : planCost player.hand player.cost_discount plan = Except.ok cost)
    (hover : (player.mana : Int) < cost) :
    ∃ e, s.apply_turn_for_seat ext seat plan = (s, Except.error e) := by
  by_cases hlen : plan.plays_to_kitchen.length > 1
  · refine ⟨"only one meme can be played from hand to kitchen per turn", ?_⟩
    simp only [GameState.apply_turn_for_seat, hp, if_pos hlen]
  · refine ⟨"insufficient mana", ?_⟩
    simp only [GameState.apply_turn_for_seat, hp, if_neg hlen, hc]
    rw [if_pos hover]

/-- C1 witness: the concrete over-committed fixture is rejected
unchanged. -/
theorem apply_turn_rejects_overcommit_witness :
    getSeat? fixtureOverState.players Seat.Host
      = some { fixtureHost with hand := [fixtureExploit "x" Seat.Host 5] } ∧
    planCost ({ fixtureHost with hand := [fixtureExploit "x" Seat.Host 5] }).hand
      ({ fixtureHost with hand := [fixtureExploit "x" Seat.Host 5] }).cost_discount
      fixtureOverPlan = Except.ok 5 ∧
    ((({ fixtureHost with hand := [fixtureExploit "x" Seat.Host 5] }).mana : Int) < 5) ∧
    ∃ e, fixtureOverState.apply_turn_for_seat fixtureExt Seat.Host fixtureOverPlan
      = (fixtureOverState, Except.error e) :=
  ⟨by decide, rfl, by decide,
   apply_turn_rejects_overcommit fixtureExt fixtureOverState Seat.Host fixtureOverPlan
     { fixtureHost with hand := [fixtureExploit "x" Seat.Host 5] } 5
     (by decide) rfl (by decide)⟩

/-! ## C2: failed reveals mutate nothing -/

/-- C2: in any state not in GameOver where the seat holds a prior commit,
`record_reveal` fails whenever the recomputed commitment of (plan, salt)
differs from the stored hash or the stored commit's turn differs from the
current turn — and on that failure the state is returned unchanged, so the
commit remains exactly as it was (in particular unrevealed). -/
theorem record_reveal_rejects_bad_reveal (ext : Ext) (s : GameState) (seat : Seat)
    (plan : TurnPlan) (salt : String) (player : PlayerState) (commit : TurnCommit)
    (hphase : s.phase ≠ Phase.GameOver)
    (hp : s.players.find? (fun p => p.seat == seat) = some player)
    (hc : player.commit = some commit)
    (hbad : commit.turn ≠ s.turn ∨ commit.hash ≠ ext.commitment_for plan salt) :
    ∃ e, s.record_reveal ext seat plan salt = (s, Except.error e) := by
  by_cases hturn : commit.turn = s.turn
  · have hhash : commit.hash ≠ ext.commitment_for plan salt := by
      rcases hbad with h | h
      · exact absurd hturn h
      · exact h
    refine ⟨"commit hash mismatch", ?_⟩
    simp only [GameState.record_reveal, if_neg hphase, hp, hc]
    simp [hturn, hhash]
  · refine ⟨"commit turn mismatch", ?_⟩
    simp only [GameState.record_reveal, if_neg hphase, hp, hc]
    simp [hturn]

/-- C2 witness: the hash-mismatched reveal on the concrete fixture fails
and leaves the state untouched. -/
theorem record_reveal_rejects_bad_reveal_witness :
    fixtureCommitState.phase ≠ Phase.GameOver ∧
    (fixtureCommitState.players.find? (fun p => p.seat == Seat.Host))
      = some { fixtureHost with commit := some fixtureStaleCommit } ∧
    (("Z" : String) ≠ fixtureExt.commitment_for TurnPlan.default "s") ∧
    ∃ e, fixtureCommitState.record_reveal fixtureExt Seat.Host TurnPlan.default "s"
      = (fixtureCommitState, Except.error e) :=
  ⟨by decide, by decide, by decide,
   record_reveal_rejects_bad_reveal fixtureExt fixtureCommitState Seat.Host TurnPlan.default
     "s" { fixtureHost with commit := some fixtureStaleCommit } fixtureStaleCommit
     (by decide) (by decide) rfl (Or.inr (by decide))⟩

/-! ## C9: revealing without a prior commit -/

/-- C9 counterexample: with no prior commit for the revealing seat but the
other seat already revealed, `record_reveal` does NOT always succeed — the
readiness check fires the resolution pipeline, and an invalid revealed
plan makes `record_reveal` itself return an error. -/
theorem record_reveal_uncommitted_reveal_can_fail :
    fixtureRevealReadyState.phase ≠ Phase.GameOver ∧
    ((fixtureRevealReadyState.players.find? (fun p => p.seat == Seat.Host)).map
      (fun p => p.commit)) = some none ∧
    (fixtureRevealReadyState.record_reveal fixtureExt Seat.Host fixtureTwoPlayPlan "s").2
      = Except.error "only one meme can be played from hand to kitchen per turn" :=
  ⟨by decide, by decide, rfl⟩

/-- A value whose predicate test fails is untouched by (and survives)
`updateFirst`. -/
theorem mem_updateFirst_of_neg (p : α → Bool) (f : α → α) (q : α) (hq : p q = false) :
    ∀ l : List α, q ∈ l → q ∈ updateFirst p f l := by
  intro l
  induction l with
  | nil => intro h; exact absurd h (List.not_mem_nil q)
  | cons a rest ih =>
    intro hmem
    rcases List.mem_cons.mp hmem with rfl | hmem
    · simp [updateFirst, hq]
    · by_cases hpa : p a
      · simp [updateFirst, hpa, List.mem_cons, hmem]
      · simp only [updateFirst, hpa]
        simp [List.mem_cons, ih hmem]

/-- C9 (amended): for every game state not in GameOver and every seat that
holds no prior pending commit, provided some other seat has not yet
revealed for this turn (so the readiness check does not fire the
resolution pipeline), `record_reveal(seat, plan, salt)` succeeds for any
(plan, salt): it installs a commit whose hash is the commitment recomputed
from the revealed plan and salt, with the plan and salt stored as
revealed, and enters the Reveal phase — a peer can reveal a plan it never
committed to, without error. -/
theorem record_reveal_installs_uncommitted_reveal (ext : Ext) (s : GameState)
    (seat : Seat) (plan : TurnPlan) (salt : String) (player q : PlayerState)
    (hphase : s.phase ≠ Phase.GameOver)
    (hfind : s.players.find? (fun p => p.seat == seat) = some player)
    (hnone : player.commit = none)
    (hq : q ∈ s.players) (hqseat : (q.seat == seat) = false)
    (hqunrev : (match q.commit with
                | some c => c.revealed.isSome
                | none => false) = false) :
    s.record_reveal ext seat plan salt =
      ({ s with
         phase := Phase.Reveal,
         players := updateFirst (fun p => p.seat == seat)
           (fun p => { p with commit := some (revealCommit ext plan salt s.turn) })
           s.players },
       Except.ok ()) := by
  have hmem : q ∈ updateFirst (fun p => p.seat == seat)
      (fun p => { p with commit := some (revealCommit ext plan salt s.turn) }) s.players :=
    mem_updateFirst_of_neg _ _ q hqseat s.players hq
  have hready : GameState.ready_to_resolve
      { s with players := (updateFirst (fun p => p.seat == seat)
          (fun p => { p with commit := some (revealCommit ext plan salt s.turn) })
          s.players) }
      = false := by
    simp only [GameState.ready_to_resolve]
    rw [List.all_eq_false]
    exact ⟨q, hmem, by simp [hqunrev]⟩
  simp only [GameState.record_reveal, if_neg hphase, hfind, hnone,
    GameState.resolve_if_ready]
  simp only [revealCommit] at hready ⊢
  rw [hready]
  rfl

/-- C9 (amended) witness: on the fresh fixture state a host reveal of the
default plan installs the commit and moves to Reveal. -/
theorem record_reveal_installs_uncommitted_reveal_witness :
    fixtureState.phase ≠ Phase.GameOver ∧
    fixtureState.players.find? (fun p => p.seat == Seat.Host) = some fixtureHost ∧
    fixtureHost.commit = none ∧
    fixtureOpp ∈ fixtureState.players ∧
    fixtureState.record_reveal fixtureExt Seat.Host TurnPlan.default "s" =
      ({ fixtureState with
         phase := Phase.Reveal,
         players := updateFirst (fun p => p.seat == Seat.Host)
           (fun p => { p with commit := some (revealCommit fixtureExt TurnPlan.default
             "s" fixtureState.turn) }) fixtureState.players },
       Except.ok ()) :=
  ⟨by decide, by decide, by decide, by decide,
   record_reveal_installs_uncommitted_reveal fixtureExt fixtureState Seat.Host
     TurnPlan.default "s" fixtureHost fixtureOpp (by decide) (by decide) (by decide)
     (by decide) (by decide) (by decide)⟩


/-! ## C10: accepting a stake claim -/

/-- C10 counterexample: with a pending claim and both plans already
revealed, `accept_based` does NOT always succeed — it immediately runs the
resolution pipeline, and an invalid revealed plan makes it return an
error (even for the seat that made the claim). -/
theorem accept_based_can_fail_with_pending_claim :
    fixtureStakeReadyState.pending_stakes.isSome = true ∧
    (fixtureStakeReadyState.accept_based fixtureExt Seat.Host).2
      = Except.error "only one meme can be played from hand to kitchen per turn" :=
  ⟨by decide, rfl⟩

/-- C10 (amended): `accept_based` checks only that some stake claim is
pending and ignores which seat accepts. For every state with a pending
claim in which the pending turn is not yet fully revealed (so no
resolution is triggered), it succeeds for either seat — including the
seat that made the claim — clears the claim, and doubles the stake
multiplier with saturating `u8` arithmetic, capping it at 255 and keeping
it ≥ 1; when both plans are already revealed it instead runs the
resolution at once, propagating any resolution error. -/
theorem accept_based_doubles_and_clears (ext : Ext) (s : GameState) (seat : Seat)
    (hpend : s.pending_stakes.isSome = true)
    (hnr : s.ready_to_resolve = false)
    (hphase : s.phase ≠ Phase.GameOver) :
    (∀ seat', s.accept_based ext seat = s.accept_based ext seat') ∧
    s.accept_based ext seat =
      ({ s with
         stakes := max (min (s.stakes * 2) 255) 1,
         pending_stakes := none,
         phase := Phase.Commit }, Except.ok ()) := by
  constructor
  · intro seat'
    rfl
  · have hpn : s.pending_stakes.isNone = false := by
      cases hps : s.pending_stakes with
      | none => rw [hps] at hpend; exact absurd hpend (by decide)
      | some v => simp
    have hready' : GameState.ready_to_resolve
        { s with stakes := max (min (s.stakes * 2) 255) 1, pending_stakes := none }
        = false := by
      simpa only [GameState.ready_to_resolve] using hnr
    simp only [GameState.accept_based, hpn, Bool.false_eq_true, if_false, hready']
    rw [if_pos hphase]

/-- C10 (amended) witness: on the pending-claim fixture (the claim made by
the Host's node), either seat's accept — here the claimant's own —
succeeds, clears the claim and doubles the stakes. -/
theorem accept_based_doubles_and_clears_witness :
    fixtureStakePendingState.pending_stakes.isSome = true ∧
    fixtureStakePendingState.ready_to_resolve = false ∧
    fixtureStakePendingState.phase ≠ Phase.GameOver ∧
    ((∀ seat', fixtureStakePendingState.accept_based fixtureExt Seat.Host
        = fixtureStakePendingState.accept_based fixtureExt seat') ∧
     fixtureStakePendingState.accept_based fixtureExt Seat.Host =
       ({ fixtureStakePendingState with
          stakes := max (min (fixtureStakePendingState.stakes * 2) 255) 1,
          pending_stakes := none,
          phase := Phase.Commit }, Except.ok ())) :=
  ⟨by decide, by decide, by decide,
   accept_based_doubles_and_clears fixtureExt fixtureStakePendingState Seat.Host
     (by decide) (by decide) (by decide)⟩

/-! ## C3: the dual-stream audited draw -/

/-- C3: for every positive bound, `FairRandomState::generate` returns
`(host_value + opponent_value) mod bound` where each seat's value is that
seat's independent stream draw and lies in `[0, bound)`, increments each
seat's draw counter by exactly one (leaving the seeds unchanged), and
appends exactly one RandomEvent to the history carrying that turn, bound,
result and both seats' contributions; for `bound = 0` it returns `0` and
consumes no draws, leaving the state unchanged. -/
theorem generate_audited_draw (ext : Ext) (r : FairRandomState) (bound turn : Nat)
    (kind : RandomEventKind) (hdraw : DrawBounded ext) :
    (0 < bound →
      ext.draw r.host_seed r.host_draws bound < bound ∧
      ext.draw r.opponent_seed r.opponent_draws bound < bound ∧
      ∃ r', r.generate ext bound turn kind =
          ((ext.draw r.host_seed r.host_draws bound +
            ext.draw r.opponent_seed r.opponent_draws bound) % bound, r') ∧
        r'.host_draws = r.host_draws + 1 ∧
        r'.opponent_draws = r.opponent_draws + 1 ∧
        r'.host_seed = r.host_seed ∧
        r'.opponent_seed = r.opponent_seed ∧
        ∃ ev, r'.history = r.history ++ [ev] ∧
          ev.turn = turn ∧
          ev.bound = bound ∧
          ev.result = (ext.draw r.host_seed r.host_draws bound +
            ext.draw r.opponent_seed r.opponent_draws bound) % bound ∧
          ev.kind = kind ∧
          ev.contributions.map (fun c => (c.seat, c.value)) =
            [(Seat.Host, ext.draw r.host_seed r.host_draws bound),
             (Seat.Opponent, ext.draw r.opponent_seed r.opponent_draws bound)]) ∧
    (bound = 0 → r.generate ext bound turn kind = (0, r)) := by
  constructor
  · intro hb
    have hb0 : ¬(bound = 0) := Nat.pos_iff_ne_zero.mp hb
    refine ⟨hdraw _ _ _ hb, hdraw _ _ _ hb, ?_⟩
    unfold FairRandomState.generate
    rw [if_neg hb0]
    exact ⟨_, rfl, rfl, rfl, rfl, rfl, _, rfl, rfl, rfl, rfl, rfl, rfl⟩
  · intro hb
    subst hb
    rfl

/-- C3 witness: the concrete oracle is draw-bounded and the theorem
instantiates at bound 5 on the fixture generator state. -/
theorem generate_audited_draw_witness :
    DrawBounded fixtureExt ∧
    ((0 < 5 →
      fixtureExt.draw fixtureState.rng.host_seed fixtureState.rng.host_draws 5 < 5 ∧
      fixtureExt.draw fixtureState.rng.opponent_seed fixtureState.rng.opponent_draws 5 < 5 ∧
      ∃ r', fixtureState.rng.generate fixtureExt 5 1 RandomEventKind.ShuffleFeed =
          ((fixtureExt.draw fixtureState.rng.host_seed fixtureState.rng.host_draws 5 +
            fixtureExt.draw fixtureState.rng.opponent_seed
              fixtureState.rng.opponent_draws 5) % 5, r') ∧
        r'.host_draws = fixtureState.rng.host_draws + 1 ∧
        r'.opponent_draws = fixtureState.rng.opponent_draws + 1 ∧
        r'.host_seed = fixtureState.rng.host_seed ∧
        r'.opponent_seed = fixtureState.rng.opponent_seed ∧
        ∃ ev, r'.history = fixtureState.rng.history ++ [ev] ∧
          ev.turn = 1 ∧
          ev.bound = 5 ∧
          ev.result = (fixtureExt.draw fixtureState.rng.host_seed
              fixtureState.rng.host_draws 5 +
            fixtureExt.draw fixtureState.rng.opponent_seed
              fixtureState.rng.opponent_draws 5) % 5 ∧
          ev.kind = RandomEventKind.ShuffleFeed ∧
          ev.contributions.map (fun c => (c.seat, c.value)) =
            [(Seat.Host, fixtureExt.draw fixtureState.rng.host_seed
                fixtureState.rng.host_draws 5),
             (Seat.Opponent, fixtureExt.draw fixtureState.rng.opponent_seed
                fixtureState.rng.opponent_draws 5)]) ∧
     (5 = 0 → fixtureState.rng.generate fixtureExt 5 1 RandomEventKind.ShuffleFeed
        = (0, fixtureState.rng))) :=
  ⟨fun _ _ _ hb => Nat.mod_lt _ hb,
   generate_audited_draw fixtureExt fixtureState.rng 5 1 RandomEventKind.ShuffleFeed
     (fun _ _ _ hb => Nat.mod_lt _ hb)⟩

/-! ## C5: cleanup relocation -/

/-- C5 (code bug): the claim requires every dead feed or kitchen card to
be destroyed only by relocation to its owner's Abyss. `cleanup_board`
honours this for kitchen cards, but its `feed.retain(virality > 0)` step
silently drops dead feed cards: on this fixture the dead feed card ends up
in no zone — the feed is empty, both kitchens are empty, and only the dead
KITCHEN card reached an abyss. -/
theorem cleanup_board_drops_dead_feed_card :
    fixtureDeadState.cleanup_board.feed = [] ∧
    fixtureDeadState.cleanup_board.players.map (fun p => p.kitchen) = [[], []] ∧
    fixtureDeadState.cleanup_board.players.map (fun p => p.abyss) =
      [[{ fixtureDeadKitchenCard with location := Location.Abyss }], []] := by
  decide

/-! ## C6: the feed-yield formula -/

theorem yieldSum_cons (seat : Seat) (start : Nat) (c : CardInstance)
    (rest : List CardInstance) :
    yieldSum seat start (c :: rest) =
      (if c.owner = seat then creditOf start c.yield_rate else 0) +
        yieldSum seat (start + 1) rest := by
  by_cases hc : c.owner = seat <;>
    simp [yieldSum, List.enumFrom, hc]

theorem yieldGo_characterization (feed : List CardInstance) :
    ∀ (start : Nat) (h o : PlayerState),
      yieldGo [h, o] start feed =
        [{ h with score := h.score + yieldSum Seat.Host start feed },
         { o with score := o.score + yieldSum Seat.Opponent start feed }] := by
  induction feed with
  | nil =>
    intro start h o
    simp [yieldGo, yieldSum, List.enumFrom]
  | cons c rest ih =>
    intro start h o
    rw [yieldSum_cons, yieldSum_cons]
    simp only [yieldGo]
    cases hc : c.owner with
    | Host =>
      simp only [withSeat, seatIdx, modifyAt]
      rw [ih]
      simp [add_assoc]
    | Opponent =>
      simp only [withSeat, seatIdx, modifyAt]
      rw [ih]
      simp [add_assoc]

/-- C6 (amended): every feed card credits its owner's score by exactly
`(10 + slotIndex × 5) × card.yieldRate` (base yield 10, per-slot step 5) —
the totals per owner are the sums of those per-card credits — and for
cards of equal POSITIVE yield rate a higher slot index credits strictly
more. -/
theorem apply_feed_yield_formula (s : GameState) (h o : PlayerState)
    (hps : s.players = [h, o]) :
    s.apply_feed_yield =
      { s with players :=
          [{ h with score := h.score + yieldSum Seat.Host 0 s.feed },
           { o with score := o.score + yieldSum Seat.Opponent 0 s.feed }] } ∧
    (∀ (i : Nat) (yr : Int), creditOf i yr = (10 + (i : Int) * 5) * yr) ∧
    (∀ (i j : Nat) (yr : Int), i < j → 0 < yr → creditOf i yr < creditOf j yr) := by
  refine ⟨?_, ?_, ?_⟩
  · simp only [GameState.apply_feed_yield, hps, yieldGo_characterization]
  · intro i yr
    rfl
  · intro i j yr hij hyr
    unfold creditOf BASE_FEED_YIELD FEED_YIELD_STEP
    apply mul_lt_mul_of_pos_right _ hyr
    have hij' : (i : Int) < (j : Int) := by exact_mod_cast hij
    omega

/-- C6 (amended) witness: the formula instantiated on the zero-yield
fixture state. -/
theorem apply_feed_yield_formula_witness :
    fixtureZeroYieldState.players =
      [fixtureHost, fixtureOpp] ∧
    (fixtureZeroYieldState.apply_feed_yield =
      { fixtureZeroYieldState with players :=
          [{ fixtureHost with score := (fixtureHost.score +
              yieldSum Seat.Host 0 fixtureZeroYieldState.feed) },
           { fixtureOpp with score := (fixtureOpp.score +
              yieldSum Seat.Opponent 0 fixtureZeroYieldState.feed) }] } ∧
     (∀ (i : Nat) (yr : Int), creditOf i yr = (10 + (i : Int) * 5) * yr) ∧
     (∀ (i j : Nat) (yr : Int), i < j → 0 < yr → creditOf i yr < creditOf j yr)) :=
  ⟨by decide,
   apply_feed_yield_formula fixtureZeroYieldState fixtureHost fixtureOpp (by decide)⟩

/-- C6 counterexample: two feed cards of equal (zero) yield rate at slots
0 and 1 credit their owners identically — the higher slot does NOT credit
strictly more, refuting the unconditional strictness of the claim. -/
theorem feed_yield_zero_yield_not_strict :
    fixtureZeroYieldState.apply_feed_yield.players.map (fun p => p.score) = [0, 0] ∧
    creditOf 0 (0 : Int) = creditOf 1 (0 : Int) ∧
    ¬ creditOf 0 (0 : Int) < creditOf 1 (0 : Int) := by
  decide

/-! ## C4: feed capacity, eviction and reindexing -/

theorem record_random_feed (ext : Ext) (s : GameState) (bound : Nat)
    (kind : RandomEventKind) : (s.record_random ext bound kind).2.feed = s.feed := by
  unfold GameState.record_random
  cases hgen : s.rng.generate ext bound s.turn kind with
  | mk result rng' =>
    simp only []
    cases rng'.history.getLast? <;> rfl

theorem randomizePhase_feed_length (ext : Ext) :
    ∀ (l : List (String × RandomRange)) (s : GameState),
      (s.randomizePhase ext l).feed.length = s.feed.length := by
  intro l
  induction l with
  | nil => intro s; rfl
  | cons pr rest ih =>
    intro s
    obtain ⟨cid, range⟩ := pr
    simp only [GameState.randomizePhase]
    rw [ih]
    simp [record_random_feed]

theorem spawnOne_feed (ext : Ext) (seat : Seat) (params : SpawnParams) :
    ∀ (n : Nat) (s : GameState), (GameState.spawnOne ext seat params n s).feed = s.feed := by
  intro n
  induction n with
  | zero => intro s; rfl
  | succ m ih =>
    intro s
    simp only [GameState.spawnOne]
    cases ext.findDef params.variant_id with
    | none => exact ih s
    | some d =>
      cases params.location <;> cases hclass : d.«class» <;>
        simp only [GameState.new_instance_from_def, hclass, ih]

theorem spawnPhase_feed (ext : Ext) (seat : Seat) :
    ∀ (l : List SpawnParams) (s : GameState),
      (s.spawnPhase ext seat l).feed = s.feed := by
  intro l
  induction l with
  | nil => intro s; rfl
  | cons params rest ih =>
    intro s
    simp only [GameState.spawnPhase]
    rw [ih, spawnOne_feed]

theorem foldl_feed_length {β : Type} (step : GameState → β → GameState)
    (hstep : ∀ st a, (step st a).feed.length = st.feed.length) :
    ∀ (l : List β) (st : GameState), (l.foldl step st).feed.length = st.feed.length := by
  intro l
  induction l with
  | nil => intro st; rfl
  | cons a rest ih =>
    intro st
    simp only [List.foldl_cons]
    rw [ih, hstep]

theorem belowStep_feed_length (idx : Nat) (st : GameState) (ability : Ability) :
    (belowStep idx st ability).feed.length = st.feed.length := by
  unfold belowStep
  split
  · rfl
  · split <;> try rfl
    · simp
    · split <;> simp

theorem foldl_belowStep_feed_length (idx : Nat) (l : List Ability) (st : GameState) :
    (l.foldl (belowStep idx) st).feed.length = st.feed.length :=
  foldl_feed_length _ (fun st a => belowStep_feed_length idx st a) l st

theorem onPostInFeed_feed_length (s : GameState) (instance_id : String) :
    (s.onPostInFeed instance_id).1.feed.length = s.feed.length := by
  unfold GameState.onPostInFeed
  split
  · rfl
  · split
    · rfl
    · simp only [foldl_belowStep_feed_length]
      split <;> split <;> (try split) <;>
        simp [foldl_belowStep_feed_length]

theorem manaCreditPhase_feed (s : GameState) (seat : Seat) (g : Nat) :
    (s.manaCreditPhase seat g).feed = s.feed := by
  unfold GameState.manaCreditPhase
  split <;> rfl

theorem pingTopPhase_feed_length (s : GameState) (seat : Seat) (pt : Option Int) :
    (s.pingTopPhase seat pt).feed.length = s.feed.length := by
  unfold GameState.pingTopPhase
  cases pt with
  | none => rfl
  | some amount =>
    cases hfeed : s.feed with
    | nil => simp [hfeed]
    | cons first rest =>
      simp only []
      split <;> simp [hfeed]

theorem auraPhase_feed (s : GameState) (seat : Seat) :
    (s.auraPhase seat).feed = s.feed := by
  unfold GameState.auraPhase
  split
  · rename_i player heq
    cases List.findSome? (fun (c : CardInstance) => aura_amount c.abilities) player.kitchen <;>
      rfl
  · rfl

theorem onPostQueued_feed_length (ext : Ext) (s : GameState) (seat : Seat)
    (queued : List SpawnParams × Nat × Option Int × List (String × RandomRange)) :
    (s.onPostQueued ext seat queued).feed.length = s.feed.length := by
  obtain ⟨spawn_tasks, gain_mana, ping_top, pending_randomize⟩ := queued
  unfold GameState.onPostQueued
  simp only []
  rw [auraPhase_feed, pingTopPhase_feed_length, spawnPhase_feed,
    randomizePhase_feed_length, manaCreditPhase_feed]

theorem apply_on_post_effects_feed_length (ext : Ext) (s : GameState) (seat : Seat)
    (instance_id : String) :
    (s.apply_on_post_effects ext seat instance_id).feed.length = s.feed.length := by
  unfold GameState.apply_on_post_effects
  rw [onPostQueued_feed_length, onPostInFeed_feed_length]

theorem popBack_eq (l : List α) : popBack l = l.getLast?.map (fun x => (x, l.dropLast)) := by
  unfold popBack
  cases hrev : l.reverse with
  | nil =>
    have hl : l = [] := by
      have := congrArg List.reverse hrev
      simpa using this
    simp [hl]
  | cons a restRev =>
    have hl : l = restRev.reverse ++ [a] := by
      have := congrArg List.reverse hrev
      simpa using this
    rw [hl]
    simp

theorem to_abyss_feed (s : GameState) (seat : Seat) (card : CardInstance) :
    (s.to_abyss seat card).feed = s.feed := rfl

theorem reindex_feed_length (s : GameState) :
    (s.reindex_feed).feed.length = s.feed.length := by
  simp [GameState.reindex_feed]

theorem postInsertCascade_feed_length (ext : Ext) (s : GameState)
    (entry : Seat × CardInstance) :
    (s.postInsertCascade ext entry).feed.length = s.feed.length + 1 := by
  unfold GameState.postInsertCascade
  simp only []
  rw [apply_on_post_effects_feed_length]
  simp only [List.length_cons]
  exact insertAt_length _ _ _ (Nat.min_le_right _ _)

theorem evictOverflow_feed_le (s : GameState) (h : s.feed.length ≤ FEED_SIZE + 1) :
    (s.evictOverflow).feed.length ≤ FEED_SIZE := by
  unfold GameState.evictOverflow
  split
  · rename_i hgt
    rw [popBack_eq]
    cases hlast : s.feed.getLast? with
    | none =>
      have hnil : s.feed = [] := List.getLast?_eq_none_iff.mp hlast
      rw [hnil] at hgt
      simp [FEED_SIZE] at hgt
    | some x =>
      simp only [Option.map, to_abyss_feed]
      have := List.length_dropLast s.feed
      simp only [FEED_SIZE] at *
      omega
  · omega

theorem postOne_feed_le (ext : Ext) (s : GameState) (entry : Seat × CardInstance)
    (h : s.feed.length ≤ FEED_SIZE) :
    (s.postOne ext entry).feed.length ≤ FEED_SIZE := by
  unfold GameState.postOne
  rw [reindex_feed_length]
  apply evictOverflow_feed_le
  rw [postInsertCascade_feed_length]
  omega

theorem postAll_feed_le (ext : Ext) :
    ∀ (entries : List (Seat × CardInstance)) (s : GameState),
      s.feed.length ≤ FEED_SIZE → (s.postAll ext entries).feed.length ≤ FEED_SIZE := by
  intro entries
  induction entries with
  | nil => intro s h; exact h
  | cons e rest ih =>
    intro s h
    exact ih _ (postOne_feed_le ext s e h)

theorem take_from_kitchen_feed (s : GameState) (seat : Seat) (posts : List PostAction) :
    (s.take_from_kitchen seat posts).2.feed = s.feed := by
  unfold GameState.take_from_kitchen
  split
  · rfl
  · split
    · rfl
    · split
      · rfl
      · split <;> rfl

theorem collectPosts_feed (seat : Seat) :
    ∀ (posts : List PostAction) (s : GameState),
      (s.collectPosts seat posts).2.feed = s.feed := by
  intro posts
  induction posts with
  | nil => intro s; rfl
  | cons post rest ih =>
    intro s
    unfold GameState.collectPosts
    cases htk : s.take_from_kitchen seat [post] with
    | mk c s' =>
      have hf : s'.feed = s.feed := by
        have := take_from_kitchen_feed s seat [post]
        rw [htk] at this
        exact this
      cases c with
      | none =>
        simp only []
        rw [ih, hf]
      | some card =>
        simp only []
        cases hcp : s'.collectPosts seat rest with
        | mk more s'' =>
          simp only []
          have := ih s'
          rw [hcp] at this
          rw [this, hf]

theorem resolve_posts_feed_le (ext : Ext) (s : GameState)
    (host_posts opponent_posts : List PostAction) (h : s.feed.length ≤ FEED_SIZE) :
    (s.resolve_posts ext host_posts opponent_posts).1.feed.length ≤ FEED_SIZE := by
  unfold GameState.resolve_posts
  split
  · exact h
  · have hf1 : (s.collectPosts Seat.Host host_posts).2.feed = s.feed :=
      collectPosts_feed _ _ _
    have hf2 : ((s.collectPosts Seat.Host host_posts).2.collectPosts Seat.Opponent
        opponent_posts).2.feed = (s.collectPosts Seat.Host host_posts).2.feed :=
      collectPosts_feed _ _ _
    simp only []
    split
    · simp only []
      rw [hf2, hf1]
      exact h
    · apply postAll_feed_le
      rw [hf2, hf1]
      exact h

theorem reindex_wellIndexed (s : GameState) : WellIndexedFeed (s.reindex_feed).feed := by
  intro i h
  simp only [GameState.reindex_feed] at h ⊢
  rw [List.get_eq_getElem]
  simp only [List.getElem_map, List.getElem_enum]

theorem postOne_wellIndexed (ext : Ext) (s : GameState) (entry : Seat × CardInstance) :
    WellIndexedFeed (s.postOne ext entry).feed :=
  reindex_wellIndexed _

theorem evictOverflow_evicts (s : GameState) (last : CardInstance)
    (hlen : FEED_SIZE < s.feed.length) (hlast : s.feed.getLast? = some last) :
    s.evictOverflow.feed = s.feed.dropLast ∧
    s.evictOverflow.players = withSeat last.owner (fun p =>
      { p with abyss := p.abyss ++ [{ last with location := Location.Abyss }] }) s.players := by
  unfold GameState.evictOverflow
  rw [if_pos hlen, popBack_eq, hlast]
  exact ⟨rfl, rfl⟩

/-- C4: after any post resolution on a within-capacity feed the feed
length is at most FEED_SIZE = 3; every individual poster step leaves the
feed reindexed (each card's stored slot equals its index) before the next
poster is processed; and whenever an insertion pushes the feed over
capacity, the eviction step removes exactly the last slot and appends that
card, relocated to Abyss, to its owner's abyss. -/
theorem resolve_posts_capacity (ext : Ext) (s : GameState)
    (host_posts opponent_posts : List PostAction)
    (hcap : s.feed.length ≤ FEED_SIZE) :
    (s.resolve_posts ext host_posts opponent_posts).1.feed.length ≤ FEED_SIZE ∧
    (∀ (st : GameState) (entry : Seat × CardInstance),
      WellIndexedFeed (st.postOne ext entry).feed) ∧
    (∀ (st : GameState) (last : CardInstance), FEED_SIZE < st.feed.length →
      st.feed.getLast? = some last →
      st.evictOverflow.feed = st.feed.dropLast ∧
      st.evictOverflow.players = withSeat last.owner (fun p =>
        { p with abyss := p.abyss ++ [{ last with location := Location.Abyss }] })
        st.players) :=
  ⟨resolve_posts_feed_le ext s host_posts opponent_posts hcap,
   fun st entry => postOne_wellIndexed ext st entry,
   fun st last h1 h2 => evictOverflow_evicts st last h1 h2⟩

/-- C4 witness: instantiated on the empty-feed fixture state. -/
theorem resolve_posts_capacity_witness :
    fixtureState.feed.length ≤ FEED_SIZE ∧
    ((fixtureState.resolve_posts fixtureExt [] []).1.feed.length ≤ FEED_SIZE ∧
     (∀ (st : GameState) (entry : Seat × CardInstance),
       WellIndexedFeed (st.postOne fixtureExt entry).feed) ∧
     (∀ (st : GameState) (last : CardInstance), FEED_SIZE < st.feed.length →
       st.feed.getLast? = some last →
       st.evictOverflow.feed = st.feed.dropLast ∧
       st.evictOverflow.players = withSeat last.owner (fun p =>
         { p with abyss := p.abyss ++ [{ last with location := Location.Abyss }] })
         st.players)) :=
  ⟨by decide, resolve_posts_capacity fixtureExt fixtureState [] [] (by decide)⟩

/-- Helper for C7: the engine's starting-hand cycle loop agrees with the
spec-worded loop that pulls the top two cards as a group and returns a
rejected group to the BOTTOM of the deck in its original order. -/
theorem startingLoop_eq_specLoop (seat : Seat) :
    ∀ (fuel : Nat) (deck hand abyss : List CardInstance)
      (cycles : List StartingHandCycle),
      startingLoop seat fuel deck hand abyss cycles =
        startingHandSpecLoop seat fuel deck hand abyss cycles := by
  intro fuel
  induction fuel with
  | zero => intro deck hand abyss cycles; rfl
  | succ f ih =>
    intro deck hand abyss cycles
    unfold startingLoop startingHandSpecLoop
    by_cases hlen : deck.length < 2
    · rw [if_pos hlen, if_pos hlen]
    · rw [if_neg hlen, if_neg hlen]
      cases hrev : deck.reverse with
      | nil =>
        exfalso
        have : deck = [] := by
          have := congrArg List.reverse hrev
          simpa using this
        rw [this] at hlen
        simp at hlen
      | cons b rest' =>
        cases rest' with
        | nil =>
          exfalso
          have : deck = [b] := by
            have := congrArg List.reverse hrev
            simpa using this
          rw [this] at hlen
          simp at hlen
        | cons a restRev =>
          have hl : deck = restRev.reverse ++ [a, b] := by
            have := congrArg List.reverse hrev
            simpa using this
          have hlenEq : deck.length = restRev.length + 2 := by
            rw [hl]; simp
          have hgroup : deck.drop (deck.length - 2) = [a, b] := by
            rw [hl]
            rw [show (restRev.reverse ++ [a, b]).length - 2 = restRev.length by simp]
            exact List.drop_left' (by simp)
          have hrem : deck.take (deck.length - 2) = restRev.reverse := by
            rw [hl]
            rw [show (restRev.reverse ++ [a, b]).length - 2 = restRev.length by simp]
            exact List.take_left' (by simp)
          simp only [hgroup, hrem]
          by_cases hm : ([a, b].any isMemeCard) = true
          · simp only [if_pos hm]
          · simp only [if_neg hm]
            rw [ih]
            rfl

/-- C7 counterexample: on a deck whose bottom card is the only meme, the
engine's loop succeeds (the rejected top group migrates to the bottom so
the meme is eventually pulled), while the claim's top-return loop cycles
the same memeless group forever and exhausts its budget with an error; in
particular the two loops disagree. -/
theorem starting_hand_not_top_return :
    (fixtureC7Player.draw_starting_hand STARTING_HAND []).2.2 = Except.ok () ∧
    (startingLoopTopReturn Seat.Host (fixtureC7Deck.length + 2)
        fixtureC7Deck [] [] []).2.2.2.2
      = Except.error "unable to produce a valid starting hand containing a meme" ∧
    startingLoop Seat.Host (fixtureC7Deck.length + 2) fixtureC7Deck [] [] [] ≠
      startingLoopTopReturn Seat.Host (fixtureC7Deck.length + 2) fixtureC7Deck [] [] [] := by
  refine ⟨rfl, rfl, ?_⟩
  intro h
  have h2 : (startingLoop Seat.Host (fixtureC7Deck.length + 2)
        fixtureC7Deck [] [] []).2.2.2.2
      = (startingLoopTopReturn Seat.Host (fixtureC7Deck.length + 2)
        fixtureC7Deck [] [] []).2.2.2.2 :=
    congrArg (fun r => r.2.2.2.2) h
  rw [show (startingLoop Seat.Host (fixtureC7Deck.length + 2)
      fixtureC7Deck [] [] []).2.2.2.2 = Except.ok () from rfl] at h2
  rw [show (startingLoopTopReturn Seat.Host (fixtureC7Deck.length + 2)
      fixtureC7Deck [] [] []).2.2.2.2
      = Except.error "unable to produce a valid starting hand containing a meme"
      from rfl] at h2
  exact Except.noConfusion h2

/-- C7 (amended): drawing the 2-card opening hand repeatedly pulls 2-card
groups off the top of the deck until a group contains a Meme; every
rejected group is returned to the BOTTOM of the deck in its original
order and logged as a cycle; exhausting the attempt budget without
finding a Meme is an error. The engine's draw equals this spec draw on
every player state. -/
theorem draw_starting_hand_eq_spec (p : PlayerState) (events : List GameEvent) :
    p.draw_starting_hand STARTING_HAND events = drawStartingHandSpec p events := by
  unfold PlayerState.draw_starting_hand drawStartingHandSpec
  rw [startingLoop_eq_specLoop]
  rfl

/-- Setting index `m` to `a` and consing the displaced element permutes
consing `a` itself. -/
theorem get_cons_set_perm (t : List α) :
    ∀ (m : Nat) (h : m < t.length) (a : α),
      List.Perm (t.get ⟨m, h⟩ :: t.set m a) (a :: t) := by
  induction t with
  | nil => intro m h a; exact absurd h (by simp)
  | cons y t' ih =>
    intro m h a
    cases m with
    | zero => exact List.Perm.swap a y t'
    | succ m' =>
      have hm' : m' < t'.length := by simpa using h
      exact (List.Perm.swap y _ _).trans
        (((ih m' hm' a).cons y).trans (List.Perm.swap a y t'))

/-- The double-`set` realisation of `Vec::swap` is a permutation. -/
theorem set_set_perm (l : List α) :
    ∀ (i j : Nat) (hi : i < l.length) (hj : j < l.length),
      List.Perm ((l.set i (l.get ⟨j, hj⟩)).set j (l.get ⟨i, hi⟩)) l := by
  induction l with
  | nil => intro i j hi _; exact absurd hi (by simp)
  | cons x t ih =>
    intro i j hi hj
    cases i with
    | zero =>
      cases j with
      | zero => exact List.Perm.refl _
      | succ m =>
        have hm : m < t.length := by simpa using hj
        exact get_cons_set_perm t m hm x
    | succ n =>
      have hn : n < t.length := by simpa using hi
      cases j with
      | zero => exact get_cons_set_perm t n hn x
      | succ m =>
        have hm : m < t.length := by simpa using hj
        exact (ih n m hn hm).cons x

/-- `listSwap` permutes its input. -/
theorem listSwap_perm (l : List α) (i j : Nat) : List.Perm (listSwap l i j) l := by
  unfold listSwap
  split
  · rename_i h
    exact set_set_perm l i j h.1 h.2
  · exact List.Perm.refl l

/-- The Fisher–Yates countdown permutes the items. -/
theorem shuffleAux_perm (ext : Ext) (turn : Nat) (kind : RandomEventKind) :
    ∀ (n : Nat) (r : FairRandomState) (items : List CardInstance),
      List.Perm (FairRandomState.shuffleAux ext turn kind n r items).2 items := by
  intro n
  induction n with
  | zero => intro r items; exact List.Perm.refl items
  | succ j ih =>
    intro r items
    cases hg : r.generate ext (j + 2) turn kind with
    | mk idx r' =>
      simp only [FairRandomState.shuffleAux, hg]
      exact (ih r' (listSwap items (j + 1) idx)).trans (listSwap_perm items (j + 1) idx)

/-- `FairRandomState::shuffle` permutes the items. -/
theorem shuffle_perm (ext : Ext) (r : FairRandomState) (items : List CardInstance)
    (turn : Nat) (kind : RandomEventKind) :
    List.Perm (r.shuffle ext items turn kind).2 items := by
  unfold FairRandomState.shuffle
  split
  · exact List.Perm.refl items
  · exact shuffleAux_perm ext turn kind (items.length - 1) r items

/-- A deck whose composition validates instantiates without error, with
one instance per id and exactly `memes` Meme cards. -/
theorem instantiate_of_validate (catalog : List CardDefinition) (owner : Seat) :
    ∀ (ids : List String) (m e : Nat),
      validate_deck_composition catalog ids = Except.ok (m, e) →
      ∀ ni : Nat, ∃ (deck : List CardInstance) (ni' : Nat),
        instantiate_deck catalog ids owner ni = Except.ok (deck, ni') ∧
        deck.length = ids.length ∧ deck.countP isMemeCard = m := by
  intro ids
  induction ids with
  | nil =>
    intro m e hval ni
    simp only [validate_deck_composition] at hval
    cases hval
    exact ⟨[], ni, rfl, rfl, rfl⟩
  | cons id rest ih =>
    intro m e hval ni
    cases hf : catalog.find? (fun c => c.id == id) with
    | none =>
      simp only [validate_deck_composition, hf] at hval
      cases hval
    | some d =>
      cases hv' : validate_deck_composition catalog rest with
      | error err =>
        simp only [validate_deck_composition, hf, hv'] at hval
        cases hval
      | ok me =>
        simp only [validate_deck_composition, hf, hv'] at hval
        cases hcard : instantiate_card ni d owner with
        | mk card ni1 =>
          obtain ⟨deck', niFin, hinst, hlen, hcount⟩ :=
            ih me.1 me.2 (by rw [hv']) ni1
          have hcc : card.«class» = d.«class» := by
            have h1 := congrArg Prod.fst hcard
            simp only [instantiate_card] at h1
            cases hcl : d.«class» with
            | Meme meme => rw [hcl] at h1; rw [← h1]
            | Exploit ex => rw [hcl] at h1; rw [← h1]
          cases hcl : d.«class» with
          | Meme meme =>
            rw [hcl] at hval
            simp only [] at hval
            cases hval
            refine ⟨card :: deck', niFin, ?_, by simp [hlen], ?_⟩
            · simp only [instantiate_deck, hf, hcard, hinst]
            · have hmeme : isMemeCard card = true := by
                simp only [isMemeCard, hcc, hcl]
              rw [List.countP_cons, hcount, hmeme]
              simp
          | Exploit ex =>
            rw [hcl] at hval
            simp only [] at hval
            cases hval
            refine ⟨card :: deck', niFin, ?_, by simp [hlen], ?_⟩
            · simp only [instantiate_deck, hf, hcard, hinst]
            · have hmeme : isMemeCard card = false := by
                simp only [isMemeCard, hcc, hcl]
              rw [List.countP_cons, hcount, hmeme]
              simp

/-- `findIdx` ignores an appended tail when the prefix already has a hit. -/
theorem findIdx_append_of_lt (p : α → Bool) :
    ∀ (l l' : List α), l.findIdx p < l.length → (l ++ l').findIdx p = l.findIdx p := by
  intro l
  induction l with
  | nil => intro l' h; exact absurd h (by simp)
  | cons a t ih =>
    intro l' h
    by_cases hp : p a = true
    · simp [List.findIdx_cons, hp]
    · have hp' : p a = false := Bool.eq_false_iff.mpr hp
      have h' : t.findIdx p < t.length := by
        simp only [List.findIdx_cons, hp', cond_false, List.length_cons] at h
        omega
      simp [List.findIdx_cons, hp', ih l' h']

/-- The starting-hand cycle loop succeeds whenever the deck still holds a
meme within reach of the remaining fuel: the first meme in draw order
moves two positions closer to the top on every rejected group. -/
theorem startingLoop_ok (seat : Seat) :
    ∀ (fuel : Nat) (deck hand abyss : List CardInstance)
      (cycles : List StartingHandCycle),
      2 ≤ deck.length →
      deck.reverse.findIdx isMemeCard < deck.length →
      deck.reverse.findIdx isMemeCard < 2 * fuel →
      (startingLoop seat fuel deck hand abyss cycles).2.2.2.2 = Except.ok () := by
  intro fuel
  induction fuel with
  | zero =>
    intro deck hand abyss cycles hlen hfind hfuel
    exact absurd hfuel (by omega)
  | succ f ih =>
    intro deck hand abyss cycles hlen hfind hfuel
    have hlen2 : ¬ deck.length < 2 := by omega
    unfold startingLoop
    rw [if_neg hlen2]
    cases hrev : deck.reverse with
    | nil =>
      exfalso
      have : deck = [] := by
        have := congrArg List.reverse hrev
        simpa using this
      rw [this] at hlen
      simp at hlen
    | cons b rest' =>
      cases rest' with
      | nil =>
        exfalso
        have : deck = [b] := by
          have := congrArg List.reverse hrev
          simpa using this
        rw [this] at hlen
        simp at hlen
      | cons a restRev =>
        by_cases hm : ([a, b].any isMemeCard) = true
        · simp only [if_pos hm]
        · simp only [if_neg hm]
          have hma : isMemeCard a = false := by
            rcases Bool.eq_false_or_eq_true (isMemeCard a) with h | h
            · exact absurd (by simp [List.any_cons, h]) hm
            · exact h
          have hmb : isMemeCard b = false := by
            rcases Bool.eq_false_or_eq_true (isMemeCard b) with h | h
            · exact absurd (by simp [List.any_cons, h]) hm
            · exact h
          have hidx : deck.reverse.findIdx isMemeCard
              = restRev.findIdx isMemeCard + 2 := by
            rw [hrev]
            simp only [List.findIdx_cons, hma, hmb, cond_false]
          have hdlen : deck.length = restRev.length + 2 := by
            have := congrArg List.length hrev
            simpa using this
          have hrestFind : restRev.findIdx isMemeCard < restRev.length := by
            rw [hidx] at hfind
            omega
          have hnewIdx : (a :: b :: restRev.reverse).reverse.findIdx isMemeCard
              = restRev.findIdx isMemeCard := by
            rw [show (a :: b :: restRev.reverse).reverse = restRev ++ [b, a] by simp]
            exact findIdx_append_of_lt isMemeCard restRev [b, a] hrestFind
          apply ih
          · simp
          · rw [hnewIdx]
            simp only [List.length_cons, List.length_reverse]
            omega
          · rw [hnewIdx]
            rw [hidx] at hfuel
            omega

/-- `draw_starting_hand` with the engine's 2-card count succeeds on any
deck of at least two cards containing a meme. -/
theorem draw_starting_hand_ok (p : PlayerState) (events : List GameEvent)
    (hlen : 2 ≤ p.deck.length) (hmeme : 0 < p.deck.countP isMemeCard) :
    (p.draw_starting_hand STARTING_HAND events).2.2 = Except.ok () := by
  have hex : ∃ x ∈ p.deck.reverse, isMemeCard x := by
    apply List.countP_pos_iff.mp
    rw [p.deck.reverse_perm.countP_eq]
    exact hmeme
  have hfind : p.deck.reverse.findIdx isMemeCard < p.deck.length := by
    have := List.findIdx_lt_length_of_exists hex
    simpa using this
  have h2 : p.deck.reverse.findIdx isMemeCard < 2 * (p.deck.length + 2) := by omega
  have hok := startingLoop_ok p.seat (p.deck.length + 2) p.deck p.hand p.abyss []
    hlen hfind h2
  cases hr : startingLoop p.seat (p.deck.length + 2) p.deck p.hand p.abyss [] with
  | mk deck rest =>
    cases rest with
    | mk hand rest2 =>
      cases rest2 with
      | mk abyss rest3 =>
        cases rest3 with
        | mk newEvents res =>
          rw [hr] at hok
          simp only [] at hok
          simp [PlayerState.draw_starting_hand, STARTING_HAND, hr]
          exact hok

/-- C8: when a submitted deck fails size/composition validation,
`build_game` still creates the match: provided both decks' ids all
resolve in the catalog (so composition counting itself succeeds), and at
least one side fails the 12-card/4-meme/8-exploit validity test, the game
is created in phase GameOver with the winner set to the seat whose deck
was valid, and no winner when both are invalid. -/
theorem build_game_invalid_deck_starts_gameover
    (ext : Ext) (catalog : List CardDefinition) (ni seed : Nat)
    (host_deck opponent_deck : List String) (oid : String) (hc oc : Nat × Nat)
    (hv : validate_deck_composition catalog host_deck = Except.ok hc)
    (ov : validate_deck_composition catalog opponent_deck = Except.ok oc)
    (hinvalid : deckValid host_deck hc.1 hc.2 = false ∨
      deckValid opponent_deck oc.1 oc.2 = false) :
    ∃ g : GameState,
      build_game ext catalog ni seed host_deck opponent_deck oid = Except.ok g ∧
      g.phase = Phase.GameOver ∧
      g.winner = (if (!deckValid host_deck hc.1 hc.2) &&
                      deckValid opponent_deck oc.1 oc.2 then some Seat.Opponent
                  else if deckValid host_deck hc.1 hc.2 &&
                      (!deckValid opponent_deck oc.1 oc.2) then some Seat.Host
                  else none) := by
  obtain ⟨hostDeck, ni1, hinst, hlenH, hcntH⟩ :=
    instantiate_of_validate catalog Seat.Host host_deck hc.1 hc.2 (by rw [hv]) ni
  obtain ⟨oppDeck, ni2, oinst, hlenO, hcntO⟩ :=
    instantiate_of_validate catalog Seat.Opponent opponent_deck oc.1 oc.2
      (by rw [ov]) ni1
  simp only [build_game, hv, ov, hinst, oinst]
  cases hsh : (FairRandomState.new ext seed).shuffle ext hostDeck 0
      (RandomEventKind.ShuffleDeck Seat.Host) with
  | mk rng1 hostShuffled =>
  simp only []
  cases hsho : rng1.shuffle ext oppDeck 0
      (RandomEventKind.ShuffleDeck Seat.Opponent) with
  | mk rng2 oppShuffled =>
  simp only []
  cases hhb : deckValid host_deck hc.1 hc.2 with
  | true =>
    cases hob : deckValid opponent_deck oc.1 oc.2 with
    | true =>
      exfalso
      rw [hhb, hob] at hinvalid
      rcases hinvalid with h | h <;> cases h
    | false =>
      have hvalid : host_deck.length = MAX_DECK_SIZE ∧ hc.1 = MEME_LIMIT ∧
          hc.2 = EXPLOIT_LIMIT := by
        simp only [deckValid, Bool.and_eq_true, beq_iff_eq] at hhb
        exact ⟨hhb.1.1, hhb.1.2, hhb.2⟩
      have hperm : List.Perm hostShuffled hostDeck := by
        have := shuffle_perm ext (FairRandomState.new ext seed) hostDeck 0
          (RandomEventKind.ShuffleDeck Seat.Host)
        rwa [hsh] at this
      have hslen : 2 ≤ hostShuffled.length := by
        rw [hperm.length_eq, hlenH, hvalid.1]
        simp [MAX_DECK_SIZE]
      have hscnt : 0 < hostShuffled.countP isMemeCard := by
        rw [hperm.countP_eq, hcntH, hvalid.2.1]
        simp [MEME_LIMIT]
      have hdraw := draw_starting_hand_ok
        (PlayerState.new Seat.Host ext.ourNode hostShuffled)
        (rng2.history.map (fun event =>
          ({ event := GameEventKind.Random event } : GameEvent)))
        hslen hscnt
      simp only [Bool.true_and, Bool.false_and, Bool.and_true, Bool.and_false,
        Bool.not_true, Bool.not_false, if_true, if_false, reduceCtorEq, reduceIte]
      cases hr : (PlayerState.new Seat.Host ext.ourNode hostShuffled).draw_starting_hand
          STARTING_HAND (rng2.history.map (fun event =>
            ({ event := GameEventKind.Random event } : GameEvent))) with
      | mk p' rest =>
        cases rest with
        | mk ev' res =>
          rw [hr] at hdraw
          simp only [] at hdraw
          subst hdraw
          exact ⟨_, rfl, rfl, rfl⟩
  | false =>
    cases hob : deckValid opponent_deck oc.1 oc.2 with
    | false => exact ⟨_, rfl, rfl, rfl⟩
    | true =>
      have hvalid : opponent_deck.length = MAX_DECK_SIZE ∧ oc.1 = MEME_LIMIT ∧
          oc.2 = EXPLOIT_LIMIT := by
        simp only [deckValid, Bool.and_eq_true, beq_iff_eq] at hob
        exact ⟨hob.1.1, hob.1.2, hob.2⟩
      have hperm : List.Perm oppShuffled oppDeck := by
        have := shuffle_perm ext rng1 oppDeck 0
          (RandomEventKind.ShuffleDeck Seat.Opponent)
        rwa [hsho] at this
      have hslen : 2 ≤ oppShuffled.length := by
        rw [hperm.length_eq, hlenO, hvalid.1]
        simp [MAX_DECK_SIZE]
      have hscnt : 0 < oppShuffled.countP isMemeCard := by
        rw [hperm.countP_eq, hcntO, hvalid.2.1]
        simp [MEME_LIMIT]
      have hdraw := draw_starting_hand_ok
        (PlayerState.new Seat.Opponent oid oppShuffled)
        (rng2.history.map (fun event =>
          ({ event := GameEventKind.Random event } : GameEvent)))
        hslen hscnt
      simp only [Bool.true_and, Bool.false_and, Bool.and_true, Bool.and_false,
        Bool.not_true, Bool.not_false, if_true, if_false, reduceCtorEq, reduceIte]
      cases hr : (PlayerState.new Seat.Opponent oid oppShuffled).draw_starting_hand
          STARTING_HAND (rng2.history.map (fun event =>
            ({ event := GameEventKind.Random event } : GameEvent))) with
      | mk p' rest =>
        cases rest with
        | mk ev' res =>
          rw [hr] at hdraw
          simp only [] at hdraw
          subst hdraw
          exact ⟨_, rfl, rfl, rfl⟩

/-- C8 witness: with an empty catalog and two empty (hence invalid) deck
lists, the match is still created, in GameOver with no winner. -/
theorem build_game_invalid_deck_starts_gameover_witness :
    validate_deck_composition [] [] = Except.ok (0, 0) ∧
    deckValid [] 0 0 = false ∧
    (∃ g : GameState,
      build_game fixtureExt [] 0 0 [] [] "opp.node" = Except.ok g ∧
      g.phase = Phase.GameOver ∧
      g.winner = (if (!deckValid [] ((0, 0) : Nat × Nat).1 ((0, 0) : Nat × Nat).2) &&
                      deckValid [] ((0, 0) : Nat × Nat).1 ((0, 0) : Nat × Nat).2
                  then some Seat.Opponent
                  else if deckValid [] ((0, 0) : Nat × Nat).1 ((0, 0) : Nat × Nat).2 &&
                      (!deckValid [] ((0, 0) : Nat × Nat).1 ((0, 0) : Nat × Nat).2)
                  then some Seat.Host
                  else none)) :=
  ⟨rfl, rfl,
    build_game_invalid_deck_starts_gameover fixtureExt [] 0 0 [] [] "opp.node"
      (0, 0) (0, 0) rfl rfl (Or.inl rfl)⟩

end MemeWars
